import Mathlib

/-!
Verification of the course-hierarchy subsystem of the M-space backend
(Course → Module → Chapter → Lesson CRUD with cascading create, replace,
delete, nested reads, and the generic cross-collection dependency scan).

The document store is modelled as explicit lists of documents; Mongo
ObjectId allocation is modelled by a single fresh-id counter `nextId`
(every created document receives the current counter value and bumps it).
`findOne`/`findById` are `List.find?` over insertion order, `deleteMany`
is `List.filter`, `findByIdAndDelete`/`deleteOne` remove the first match,
and `create`/`insertMany` append.  Collections outside the hierarchy that
the dependency scanner `checkDependencies` iterates (Assignment, Student,
LessonCompletion, ...) are abstracted as `others`: a list of documents,
each a list of (field-name, id) pairs.
-/

set_option maxHeartbeats 1000000

deriving instance DecidableEq for Except

namespace MSpace

/-- A user document (`models/User.js`): only the id and the resolved role
name are relevant to the course subsystem. -/
structure UserD where
  id : Nat
  role : String
deriving DecidableEq

/-- A course document (`models/Course.js`). -/
structure Course where
  id : Nat
  title : String
  description : String
  createdBy : Nat
  status : Bool
deriving DecidableEq

/-- A module document (`models/Module.js`). -/
structure Module where
  id : Nat
  courseId : Nat
  title : String
  orderIndex : Int
deriving DecidableEq

/-- A chapter document (fields as used throughout the controllers:
moduleId, title, orderIndex). -/
structure Chapter where
  id : Nat
  moduleId : Nat
  title : String
  orderIndex : Int
deriving DecidableEq

/-- A lesson document (`models/Lesson.js`). -/
structure Lesson where
  id : Nat
  chapterId : Nat
  title : String
  contentType : String
  contentURL : String
  duration : Int
  orderIndex : Int
deriving DecidableEq

/-- The error taxonomy used by the controllers (`utils/customErrors`). -/
inductive Err where
  | conflict (msg : String)
  | notFound (msg : String)
  | forbidden (msg : String)
deriving DecidableEq

/-- Database state: the registered collections plus the fresh-id counter. -/
structure DB where
  users : List UserD
  courses : List Course
  modules : List Module
  chapters : List Chapter
  lessons : List Lesson
  others : List (List (String × Nat))
  nextId : Nat
deriving DecidableEq

/-- Remove the first element satisfying `p` (Mongo `deleteOne` /
`findByIdAndDelete`). -/
def removeFirst (p : α → Prop) [DecidablePred p] : List α → List α
  | [] => []
  | a :: l => if p a then l else a :: removeFirst p l

/-- Payload of one lesson in a hierarchy write request. -/
structure LessonInput where
  title : String
  contentType : String
  contentURL : String
  duration : Int
  orderIndex : Int
deriving DecidableEq

/-- Payload of one chapter in a hierarchy write request. -/
structure ChapterInput where
  title : String
  orderIndex : Int
  lessons : List LessonInput
deriving DecidableEq

/-- Payload of one module in a hierarchy write request. -/
structure ModuleInput where
  title : String
  orderIndex : Int
  chapters : List ChapterInput
deriving DecidableEq

/-- A full hierarchy-create / hierarchy-update request body (after Joi
validation, hence structurally well-typed). -/
structure CourseInput where
  title : String
  description : String
  createdBy : Nat
  status : Bool
  modules : List ModuleInput
deriving DecidableEq

/-- Erase a stored lesson back to payload form. -/
def Lesson.toInput (l : Lesson) : LessonInput :=
  { title := l.title, contentType := l.contentType, contentURL := l.contentURL,
    duration := l.duration, orderIndex := l.orderIndex }

/-- A chapter together with its nested lessons, as assembled by the
hierarchy read composer. -/
structure ChapterOut where
  chapter : Chapter
  lessons : List Lesson
deriving DecidableEq

/-- A module together with its nested chapters, as assembled by the
hierarchy read composer. -/
structure ModuleOut where
  mdl : Module
  chapters : List ChapterOut
deriving DecidableEq

/-- Erase an assembled chapter back to payload form. -/
def ChapterOut.toInput (c : ChapterOut) : ChapterInput :=
  { title := c.chapter.title, orderIndex := c.chapter.orderIndex,
    lessons := c.lessons.map Lesson.toInput }

/-- Erase an assembled module back to payload form. -/
def ModuleOut.toInput (m : ModuleOut) : ModuleInput :=
  { title := m.mdl.title, orderIndex := m.mdl.orderIndex,
    chapters := m.chapters.map ChapterOut.toInput }

/-- The hierarchy read composer `getCourseWithHierarchy`
(`controllers/courseController.js` 217-246): load the course, its
modules, the chapters of those modules, the lessons of those chapters,
and nest by parent-id equality.  No sorting is applied. -/
def getCourseWithHierarchy (courseId : Nat) (db : DB) :
    Except Err (Course × List ModuleOut) :=
  match db.courses.find? (fun c => decide (c.id = courseId)) with
  | none => .error (.notFound "Course not found.")
  | some course =>
    let mods : List Module := db.modules.filter (fun m => decide (m.courseId = courseId))
    let moduleIds : List Nat := mods.map (fun m => m.id)
    let chaps : List Chapter := db.chapters.filter (fun ch => decide (ch.moduleId ∈ moduleIds))
    let chapterIds : List Nat := chaps.map (fun ch => ch.id)
    let less : List Lesson := db.lessons.filter (fun ls => decide (ls.chapterId ∈ chapterIds))
    let structured := mods.map (fun m =>
      { mdl := m,
        chapters := (chaps.filter (fun ch => decide (ch.moduleId = m.id))).map
          (fun ch => { chapter := ch,
                       lessons := less.filter (fun ls => decide (ls.chapterId = ch.id)) }) })
    .ok (course, structured)

/-- The field/value pairs each registered collection exposes to the
dependency scanner: the parent-reference fields of the schemas
(`createdBy` on Course, `courseId` on Module, `moduleId` on Chapter,
`chapterId` on Lesson) plus the abstracted outside collections. -/
def DB.allRefDocs (db : DB) : List (List (String × Nat)) :=
  db.courses.map (fun c => [("createdBy", c.createdBy)]) ++
  db.modules.map (fun m => [("courseId", m.courseId)]) ++
  db.chapters.map (fun ch => [("moduleId", ch.moduleId)]) ++
  db.lessons.map (fun l => [("chapterId", l.chapterId)]) ++
  db.others

/-- Existence of a blocking reference: some document in some registered
collection has some field named in `refFields` equal to `targetId`. -/
def depExists (targetId : Nat) (refFields : List String) (db : DB) : Prop :=
  ∃ doc ∈ db.allRefDocs, ∃ f ∈ refFields, (f, targetId) ∈ doc

instance (targetId : Nat) (refFields : List String) (db : DB) :
    Decidable (depExists targetId refFields db) := by
  unfold depExists; infer_instance

/-- The generic reference-integrity scanner `checkDependencies`
(`helper/checkDependencies.js`): scan every registered collection for any
document whose `refFields`-named field equals `targetId`; on a match throw
a Conflict naming `docName`, otherwise return normally.  It issues only
`exists` queries, so the state is returned unchanged. -/
def checkDependencies (docName : String) (targetId : Nat)
    (refFields : List String) (db : DB) : Except Err Unit × DB :=
  if depExists targetId refFields db then
    (.error (.conflict ("Can\x27t delete this " ++ docName ++ " as dependencies found")), db)
  else
    (.ok (), db)

/-- Module deletion `deleteModule` (`controllers/moduleController.js`
372-379): 404 if absent, then the dependency scan with label "Course" and
reference field `courseId`, then `findByIdAndDelete`. -/
def deleteModule (moduleId : Nat) (db : DB) : Except Err Unit × DB :=
  if ∃ m ∈ db.modules, m.id = moduleId then
    match (checkDependencies "Course" moduleId ["courseId"] db).1 with
    | .error e => (.error e, db)
    | .ok _ =>
      (.ok (), { db with modules := removeFirst (fun m => m.id = moduleId) db.modules })
  else
    (.error (.notFound "Module not found"), db)

/-- Standalone chapter deletion `deleteChapter` (chapter controller):
a bare `findByIdAndDelete` — no dependency scan, no cascade to lessons. -/
def deleteChapter (chapterId : Nat) (db : DB) : Except Err Unit × DB :=
  if ∃ ch ∈ db.chapters, ch.id = chapterId then
    (.ok (), { db with chapters := removeFirst (fun ch => ch.id = chapterId) db.chapters })
  else
    (.error (.notFound "Chapter not found"), db)

/-- Cascade delete `deleteCourseWithHierarchy`
(`controllers/courseController.js` 195-215): find the course, collect its
module ids and their chapter ids, then delete lessons, chapters, modules
bottom-up by those ids and finally the course document.  No dependency
scan is consulted. -/
def deleteCourseWithHierarchy (courseId : Nat) (db : DB) : Except Err Unit × DB :=
  match db.courses.find? (fun c => decide (c.id = courseId)) with
  | none => (.error (.notFound "Course not found."), db)
  | some _ =>
    let moduleIds := (db.modules.filter (fun m => decide (m.courseId = courseId))).map (fun m => m.id)
    let chapterIds := (db.chapters.filter (fun ch => decide (ch.moduleId ∈ moduleIds))).map (fun ch => ch.id)
    (.ok (),
      { db with
        lessons := db.lessons.filter (fun l => decide (l.chapterId ∉ chapterIds)),
        chapters := db.chapters.filter (fun ch => decide (ch.moduleId ∉ moduleIds)),
        modules := db.modules.filter (fun m => decide (m.courseId ≠ courseId)),
        courses := removeFirst (fun c => c.id = courseId) db.courses })

/-- The lesson loop of `createCourseWithHierarchy`
(`controllers/courseController.js` 80-101): for each lesson, first the
in-request duplicate-title check against `seenLessonTitles`, then the
database duplicate check within the freshly created chapter, then
`Lesson.create`. -/
def createLessons (chapTitle : String) (chapterId : Nat) (seen : List String)
    (ls : List LessonInput) (db : DB) : Except Err Unit × DB :=
  match ls with
  | [] => (.ok (), db)
  | les :: rest =>
    if les.title ∈ seen then
      (.error (.conflict ("Duplicate lesson title in chapter " ++ chapTitle ++ ": " ++ les.title)), db)
    else if ∃ l ∈ db.lessons, l.chapterId = chapterId ∧ l.title = les.title then
      (.error (.conflict ("Lesson " ++ les.title ++ " already exists in chapter " ++ chapTitle)), db)
    else
      let db1 : DB :=
        { db with
          lessons := db.lessons ++
            [{ id := db.nextId, chapterId := chapterId, title := les.title,
               contentType := les.contentType, contentURL := les.contentURL,
               duration := les.duration, orderIndex := les.orderIndex }],
          nextId := db.nextId + 1 }
      createLessons chapTitle chapterId (les.title :: seen) rest db1

/-- The chapter loop of `createCourseWithHierarchy`
(`controllers/courseController.js` 59-102): in-request duplicate check,
database duplicate check within the module, `Chapter.create`, then the
lesson loop with a fresh seen-set. -/
def createChapters (modTitle : String) (moduleId : Nat) (seen : List String)
    (cs : List ChapterInput) (db : DB) : Except Err Unit × DB :=
  match cs with
  | [] => (.ok (), db)
  | chap :: rest =>
    if chap.title ∈ seen then
      (.error (.conflict ("Duplicate chapter title in module " ++ modTitle ++ ": " ++ chap.title)), db)
    else if ∃ c ∈ db.chapters, c.moduleId = moduleId ∧ c.title = chap.title then
      (.error (.conflict ("Chapter " ++ chap.title ++ " already exists in module " ++ modTitle)), db)
    else
      let savedChapter : Chapter :=
        { id := db.nextId, moduleId := moduleId, title := chap.title, orderIndex := chap.orderIndex }
      let db1 : DB := { db with chapters := db.chapters ++ [savedChapter], nextId := db.nextId + 1 }
      match createLessons chap.title savedChapter.id [] chap.lessons db1 with
      | (.error e, db2) => (.error e, db2)
      | (.ok _, db2) => createChapters modTitle moduleId (chap.title :: seen) rest db2

/-- The module loop of `createCourseWithHierarchy`
(`controllers/courseController.js` 37-103): in-request duplicate check,
database duplicate check within the course, `Module.create`, then the
chapter loop with a fresh seen-set. -/
def createModules (courseId : Nat) (seen : List String)
    (ms : List ModuleInput) (db : DB) : Except Err Unit × DB :=
  match ms with
  | [] => (.ok (), db)
  | m :: rest =>
    if m.title ∈ seen then
      (.error (.conflict ("Duplicate module title in request: " ++ m.title)), db)
    else if ∃ m0 ∈ db.modules, m0.courseId = courseId ∧ m0.title = m.title then
      (.error (.conflict ("Module with title " ++ m.title ++ " already exists in this course")), db)
    else
      let savedModule : Module :=
        { id := db.nextId, courseId := courseId, title := m.title, orderIndex := m.orderIndex }
      let db1 : DB := { db with modules := db.modules ++ [savedModule], nextId := db.nextId + 1 }
      match createChapters m.title savedModule.id [] m.chapters db1 with
      | (.error e, db2) => (.error e, db2)
      | (.ok _, db2) => createModules courseId (m.title :: seen) rest db2

/-- Hierarchy create `createCourseWithHierarchy`
(`controllers/courseController.js` 10-116): check the creator exists
(NotFound), check no course already has exactly this title (Conflict),
create the Course document, then run the module loop.  There is no
transaction: writes performed before a failure are kept. -/
def createCourseWithHierarchy (input : CourseInput) (db : DB) : Except Err Nat × DB :=
  if ∃ u ∈ db.users, u.id = input.createdBy then
    if ∃ c ∈ db.courses, c.title = input.title then
      (.error (.conflict "Course title already exists"), db)
    else
      let course : Course :=
        { id := db.nextId, title := input.title, description := input.description,
          createdBy := input.createdBy, status := input.status }
      let db1 : DB := { db with courses := db.courses ++ [course], nextId := db.nextId + 1 }
      match createModules course.id [] input.modules db1 with
      | (.error e, db2) => (.error e, db2)
      | (.ok _, db2) => (.ok course.id, db2)
  else
    (.error (.notFound "User does not exist"), db)

/-- The `Lesson.insertMany` step of the update path
(`controllers/courseController.js` 170-179): append one lesson row per
payload lesson, each with a fresh id. -/
def insertLessons (chapterId : Nat) (ls : List LessonInput) (db : DB) : DB :=
  match ls with
  | [] => db
  | les :: rest =>
    insertLessons chapterId rest
      { db with
        lessons := db.lessons ++
          [{ id := db.nextId, chapterId := chapterId, title := les.title,
             contentType := les.contentType, contentURL := les.contentURL,
             duration := les.duration, orderIndex := les.orderIndex }],
        nextId := db.nextId + 1 }

/-- The chapter-recreation loop of the update path
(`controllers/courseController.js` 168-181): `Chapter.create` then
`Lesson.insertMany`, with no validation. -/
def recreateChapters (moduleId : Nat) (cs : List ChapterInput) (db : DB) : DB :=
  match cs with
  | [] => db
  | chap :: rest =>
    let savedChapter : Chapter :=
      { id := db.nextId, moduleId := moduleId, title := chap.title, orderIndex := chap.orderIndex }
    let db1 : DB := { db with chapters := db.chapters ++ [savedChapter], nextId := db.nextId + 1 }
    recreateChapters moduleId rest (insertLessons savedChapter.id chap.lessons db1)

/-- The module-recreation loop of the update path
(`controllers/courseController.js` 165-183): `Module.create` then the
chapter loop, with no validation. -/
def recreateModules (courseId : Nat) (ms : List ModuleInput) (db : DB) : DB :=
  match ms with
  | [] => db
  | m :: rest =>
    let savedModule : Module :=
      { id := db.nextId, courseId := courseId, title := m.title, orderIndex := m.orderIndex }
    let db1 : DB := { db with modules := db.modules ++ [savedModule], nextId := db.nextId + 1 }
    recreateModules courseId rest (recreateChapters savedModule.id m.chapters db1)

/-- The `course.set(...); course.save()` step of the update path
(`controllers/courseController.js` 149-151): overwrite the course's own
fields in place (the document id is preserved). -/
def applyCourseUpdate (courseId : Nat) (input : CourseInput) (db : DB) : DB :=
  { db with
    courses := db.courses.map (fun c =>
      if c.id = courseId then
        { c with title := input.title, description := input.description,
                 createdBy := input.createdBy, status := input.status }
      else c) }

/-- The subtree-removal step of the update path
(`controllers/courseController.js` 153-162): collect the course's module
ids and their chapter ids, then `deleteMany` the lessons under those
chapters, the chapters under those modules, and the course's modules. -/
def deleteCourseSubtree (courseId : Nat) (db : DB) : DB :=
  let moduleIds : List Nat :=
    (db.modules.filter (fun m => decide (m.courseId = courseId))).map (fun m => m.id)
  let chapterIds : List Nat :=
    (db.chapters.filter (fun ch => decide (ch.moduleId ∈ moduleIds))).map (fun ch => ch.id)
  { db with
    lessons := db.lessons.filter (fun l => decide (l.chapterId ∉ chapterIds)),
    chapters := db.chapters.filter (fun ch => decide (ch.moduleId ∉ moduleIds)),
    modules := db.modules.filter (fun m => decide (m.courseId ≠ courseId)) }

/-- Full-replace update `updateCourseWithHierarchy`
(`controllers/courseController.js` 118-193): find the course (NotFound),
reject a different course with the same exact title (Conflict), reject
duplicate module titles and duplicate chapter titles inside the payload
(Conflict) — lesson titles are not checked — then update the course
fields in place, delete the entire existing module/chapter/lesson subtree
and recreate it fresh from the payload. -/
def updateCourseWithHierarchy (courseId : Nat) (input : CourseInput) (db : DB) :
    Except Err Unit × DB :=
  match db.courses.find? (fun c => decide (c.id = courseId)) with
  | none => (.error (.notFound "Course not found."), db)
  | some _ =>
    if ∃ c ∈ db.courses, c.title = input.title ∧ c.id ≠ courseId then
      (.error (.conflict "Another course with the same title exists."), db)
    else if ¬ (input.modules.map (fun m => m.title)).Nodup then
      (.error (.conflict "Duplicate module titles in request."), db)
    else
      match input.modules.find? (fun m => decide (¬ (m.chapters.map (fun c => c.title)).Nodup)) with
      | some m =>
        (.error (.conflict ("Duplicate chapter titles in module " ++ m.title ++ ".")), db)
      | none =>
        (.ok (), recreateModules courseId input.modules
          (deleteCourseSubtree courseId (applyCourseUpdate courseId input db)))

/-- Character-wise ASCII lowering, modelling JavaScript
`String.prototype.toLowerCase` (written over the character list so that it
evaluates by kernel reduction). -/
def lowerStr (s : String) : String := String.mk (s.data.map Char.toLower)

/-- Case-insensitive string equality, modelling the anchored
case-insensitive regexes used by the standalone course controller. -/
def ciEq (s t : String) : Prop := lowerStr s = lowerStr t

instance (s t : String) : Decidable (ciEq s t) := by
  unfold ciEq; infer_instance

/-- Standalone course creation `createCourse` (course controller): resolve
the caller role and forbid students/tutors, then reject an existing
course whose title matches case-insensitively, then `Course.create`. -/
def createCourse (userId : Nat) (title description : String) (status : Bool)
    (db : DB) : Except Err Course × DB :=
  let role : Option String := (db.users.find? (fun u => decide (u.id = userId))).map
    (fun u => lowerStr u.role)
  if role = some "student" ∨ role = some "tutor" then
    (.error (.forbidden "user doesn\x27t have permission to create course"), db)
  else if ∃ c ∈ db.courses, ciEq c.title title then
    (.error (.conflict "A course with this title already exists."), db)
  else
    let course : Course :=
      { id := db.nextId, title := title, description := description,
        createdBy := userId, status := status }
    (.ok course, { db with courses := db.courses ++ [course], nextId := db.nextId + 1 })

/-- Chapter listing `getChaptersByModuleId` (chapter controller 259-279):
check the module exists, then return its chapters sorted ascending by
`orderIndex` (Mongo `.sort` is stable; insertion sort models it). -/
def getChaptersByModuleId (moduleId : Nat) (db : DB) : Except Err (List Chapter) :=
  if ∃ m ∈ db.modules, m.id = moduleId then
    .ok ((db.chapters.filter (fun ch => decide (ch.moduleId = moduleId))).insertionSort
      (fun a b => a.orderIndex ≤ b.orderIndex))
  else
    .error (.notFound "Module not found")

/-- The nested structure assembled by the hierarchy read composer for one
course, written with the per-parent filters only (the `moduleIds` /
`chapterIds` pre-filters of the source are absorbed, see
`getCourseWithHierarchy_ok`). -/
def readModules (db : DB) (courseId : Nat) : List ModuleOut :=
  (db.modules.filter (fun m => decide (m.courseId = courseId))).map (fun m =>
    { mdl := m,
      chapters := (db.chapters.filter (fun ch => decide (ch.moduleId = m.id))).map (fun ch =>
        { chapter := ch,
          lessons := db.lessons.filter (fun ls => decide (ls.chapterId = ch.id)) }) })

/-- Every stored document id and every stored parent-reference id is below
the fresh-id counter.  Holds in every reachable state and is preserved by
all the operations. -/
def DB.bounded (db : DB) : Prop :=
  (∀ c ∈ db.courses, c.id < db.nextId) ∧
  (∀ m ∈ db.modules, m.id < db.nextId ∧ m.courseId < db.nextId) ∧
  (∀ ch ∈ db.chapters, ch.id < db.nextId ∧ ch.moduleId < db.nextId) ∧
  (∀ l ∈ db.lessons, l.id < db.nextId ∧ l.chapterId < db.nextId)

/-- Well-formed state: bounded and with pairwise-distinct document ids in
every collection. -/
def DB.WF (db : DB) : Prop :=
  db.bounded ∧
  (db.courses.map (fun c => c.id)).Nodup ∧
  (db.modules.map (fun m => m.id)).Nodup ∧
  (db.chapters.map (fun ch => ch.id)).Nodup ∧
  (db.lessons.map (fun l => l.id)).Nodup

instance (db : DB) : Decidable db.bounded := by
  unfold DB.bounded; infer_instance

instance (db : DB) : Decidable db.WF := by
  unfold DB.WF; infer_instance

instance : IsTotal Chapter (fun a b => a.orderIndex ≤ b.orderIndex) :=
  ⟨fun a b => Int.le_total a.orderIndex b.orderIndex⟩

instance : IsTrans Chapter (fun a b => a.orderIndex ≤ b.orderIndex) :=
  ⟨fun _ _ _ h1 h2 => le_trans h1 h2⟩

/-! ### Generic list facts used throughout -/

theorem removeFirst_sublist {α : Type} (p : α → Prop) [DecidablePred p] :
    ∀ l : List α, List.Sublist (removeFirst p l) l
  | [] => by simp [removeFirst]
  | a :: l => by
    rw [removeFirst]
    split
    · exact List.sublist_cons_self a l
    · exact List.Sublist.cons₂ a (removeFirst_sublist p l)

theorem mem_of_mem_removeFirst {α : Type} {p : α → Prop} [DecidablePred p]
    {l : List α} {x : α} (hx : x ∈ removeFirst p l) : x ∈ l :=
  (removeFirst_sublist p l).mem hx

theorem mem_removeFirst_of_not_pred {α : Type} {p : α → Prop} [DecidablePred p] :
    ∀ {l : List α} {x : α}, x ∈ l → ¬ p x → x ∈ removeFirst p l
  | a :: l, x, hx, hpx => by
    rw [removeFirst]
    split
    · rcases List.mem_cons.mp hx with rfl | h
      · exact absurd (by assumption) hpx
      · exact h
    · rcases List.mem_cons.mp hx with rfl | h
      · exact List.mem_cons_self x _
      · exact List.mem_cons_of_mem _ (mem_removeFirst_of_not_pred h hpx)

theorem length_removeFirst_of_mem {α : Type} {p : α → Prop} [DecidablePred p] :
    ∀ {l : List α}, (∃ x ∈ l, p x) → (removeFirst p l).length + 1 = l.length
  | a :: l, hex => by
    rw [removeFirst]
    split
    · simp
    · rename_i hpa
      have hex' : ∃ x ∈ l, p x := by
        rcases hex with ⟨x, hx, hpx⟩
        rcases List.mem_cons.mp hx with rfl | h
        · exact absurd hpx hpa
        · exact ⟨x, h, hpx⟩
      simpa using length_removeFirst_of_mem hex'

theorem not_key_of_mem_removeFirst {α β : Type} [DecidableEq β] {f : α → β} {k : β} :
    ∀ {l : List α}, (l.map f).Nodup →
      ∀ {x : α}, x ∈ removeFirst (fun a => f a = k) l → f x ≠ k
  | a :: l, hnd, x, hx => by
    rw [removeFirst] at hx
    have hnd' := hnd
    rw [List.map_cons, List.nodup_cons] at hnd'
    split at hx
    · rename_i hpa
      intro hfx
      exact hnd'.1 (by
        rw [List.mem_map]
        exact ⟨x, hx, by rw [hfx, hpa]⟩)
    · rcases List.mem_cons.mp hx with rfl | h
      · assumption
      · exact not_key_of_mem_removeFirst hnd'.2 h

theorem map_mdl_of {f : Module → ModuleOut} (h : ∀ m, (f m).mdl = m) :
    ∀ (l : List Module), (l.map f).map (fun mo => mo.mdl) = l := by
  intro l
  rw [List.map_map]
  have hc : ((fun mo => mo.mdl) ∘ f) = fun m => m := funext fun m => h m
  rw [hc]
  simp

/-! ### The read composer in terms of per-parent filters -/

/-- If the course is found, the composed read is `readModules`: the
`moduleIds` / `chapterIds` pre-filters of the source absorb into the
per-parent filters. -/
theorem getCourseWithHierarchy_ok {db : DB} {courseId : Nat} {c : Course}
    (h : db.courses.find? (fun c0 => decide (c0.id = courseId)) = some c) :
    getCourseWithHierarchy courseId db = .ok (c, readModules db courseId) := by
  unfold getCourseWithHierarchy
  rw [h]
  dsimp only
  unfold readModules
  congr 1
  congr 1
  apply List.map_congr_left
  intro m hm
  have hmid : m.id ∈ (db.modules.filter (fun m0 => decide (m0.courseId = courseId))).map
      (fun m0 => m0.id) := List.mem_map_of_mem _ hm
  have hch : (db.chapters.filter (fun ch =>
        decide (ch.moduleId ∈ (db.modules.filter (fun m0 =>
          decide (m0.courseId = courseId))).map (fun m0 => m0.id)))).filter
      (fun ch => decide (ch.moduleId = m.id)) =
      db.chapters.filter (fun ch => decide (ch.moduleId = m.id)) := by
    rw [List.filter_filter]
    apply List.filter_congr
    intro ch _
    by_cases hc : ch.moduleId = m.id
    · simp [hc, hmid]
    · simp [hc]
  rw [hch]
  congr 1
  apply List.map_congr_left
  intro ch hch2
  have hcm : ch.moduleId = m.id := by
    have := (List.mem_filter.mp hch2).2
    simpa using this
  have hchin : ch ∈ db.chapters.filter (fun ch0 =>
      decide (ch0.moduleId ∈ (db.modules.filter (fun m0 =>
        decide (m0.courseId = courseId))).map (fun m0 => m0.id))) := by
    refine List.mem_filter.mpr ⟨(List.mem_filter.mp hch2).1, ?_⟩
    simp only [decide_eq_true_eq]
    rw [hcm]
    simpa using hmid
  have hcid : ch.id ∈ (db.chapters.filter (fun ch0 =>
      decide (ch0.moduleId ∈ (db.modules.filter (fun m0 =>
        decide (m0.courseId = courseId))).map (fun m0 => m0.id)))).map
      (fun ch0 => ch0.id) := List.mem_map_of_mem _ hchin
  have hls : (db.lessons.filter (fun ls =>
      decide (ls.chapterId ∈ ((db.chapters.filter (fun ch0 =>
        decide (ch0.moduleId ∈ (db.modules.filter (fun m0 =>
          decide (m0.courseId = courseId))).map (fun m0 => m0.id)))).map
            (fun ch0 => ch0.id))))).filter
      (fun ls => decide (ls.chapterId = ch.id)) =
      db.lessons.filter (fun ls => decide (ls.chapterId = ch.id)) := by
    rw [List.filter_filter]
    apply List.filter_congr
    intro ls _
    by_cases hl : ls.chapterId = ch.id
    · simp [hl, hcid]
    · simp [hl]
  rw [hls]

/-! ### Specification of the recreation (insert-only) loops -/

theorem insertLessons_spec (chapterId : Nat) :
    ∀ (ls : List LessonInput) (db : DB),
    ∃ newLs : List Lesson,
      (insertLessons chapterId ls db).users = db.users ∧
      (insertLessons chapterId ls db).courses = db.courses ∧
      (insertLessons chapterId ls db).modules = db.modules ∧
      (insertLessons chapterId ls db).chapters = db.chapters ∧
      (insertLessons chapterId ls db).others = db.others ∧
      (insertLessons chapterId ls db).lessons = db.lessons ++ newLs ∧
      (insertLessons chapterId ls db).nextId = db.nextId + ls.length ∧
      (∀ l ∈ newLs, l.chapterId = chapterId ∧ db.nextId ≤ l.id ∧
        l.id < db.nextId + ls.length) ∧
      newLs.map Lesson.toInput = ls
  | [], db => ⟨[], rfl, rfl, rfl, rfl, rfl, by simp [insertLessons], by simp [insertLessons], by simp, rfl⟩
  | les :: rest, db => by
    rw [insertLessons]
    rcases insertLessons_spec chapterId rest
      { db with
        lessons := db.lessons ++
          [{ id := db.nextId, chapterId := chapterId, title := les.title,
             contentType := les.contentType, contentURL := les.contentURL,
             duration := les.duration, orderIndex := les.orderIndex }],
        nextId := db.nextId + 1 } with
      ⟨newLs, hu, hc, hm, hch, ho, hl, hn, hb, hi⟩
    refine ⟨{ id := db.nextId, chapterId := chapterId, title := les.title,
              contentType := les.contentType, contentURL := les.contentURL,
              duration := les.duration, orderIndex := les.orderIndex } :: newLs,
      hu, hc, hm, hch, ho, ?_, ?_, ?_, ?_⟩
    · rw [hl]
      simp
    · rw [hn]
      show db.nextId + 1 + rest.length = db.nextId + (rest.length + 1)
      omega
    · intro l hlmem
      rcases List.mem_cons.mp hlmem with rfl | hmem
      · refine ⟨rfl, le_refl _, ?_⟩
        show db.nextId < db.nextId + (rest.length + 1)
        omega
      · rcases hb l hmem with ⟨h1, h2, h3⟩
        refine ⟨h1, ?_, ?_⟩
        · have h2' : db.nextId + 1 ≤ l.id := h2
          omega
        · have h3' : l.id < db.nextId + 1 + rest.length := h3
          show l.id < db.nextId + (rest.length + 1)
          omega
    · simp only [List.map_cons, hi]
      rfl

theorem bounded_insertLessons {chapterId : Nat} :
    ∀ {ls : List LessonInput} {db : DB}, db.bounded → chapterId < db.nextId →
      (insertLessons chapterId ls db).bounded
  | [], db, hb, _ => by rw [insertLessons]; exact hb
  | les :: rest, db, hb, hch => by
    rw [insertLessons]
    apply @bounded_insertLessons chapterId rest
    · obtain ⟨h1, h2, h3, h4⟩ := hb
      refine ⟨?_, ?_, ?_, ?_⟩
      · intro c hc
        exact Nat.lt_succ_of_lt (h1 c hc)
      · intro m hm
        exact ⟨Nat.lt_succ_of_lt (h2 m hm).1, Nat.lt_succ_of_lt (h2 m hm).2⟩
      · intro ch hc
        exact ⟨Nat.lt_succ_of_lt (h3 ch hc).1, Nat.lt_succ_of_lt (h3 ch hc).2⟩
      · intro l hl
        rcases List.mem_append.mp hl with hmem | hmem
        · exact ⟨Nat.lt_succ_of_lt (h4 l hmem).1, Nat.lt_succ_of_lt (h4 l hmem).2⟩
        · simp at hmem
          subst hmem
          exact ⟨Nat.lt_succ_self _, Nat.lt_succ_of_lt hch⟩
    · exact Nat.lt_succ_of_lt hch

theorem recreateChapters_spec (moduleId : Nat) :
    ∀ (cs : List ChapterInput) (db : DB), db.bounded → moduleId < db.nextId →
    ∃ (newChs : List Chapter) (newLs : List Lesson),
      (recreateChapters moduleId cs db).users = db.users ∧
      (recreateChapters moduleId cs db).courses = db.courses ∧
      (recreateChapters moduleId cs db).modules = db.modules ∧
      (recreateChapters moduleId cs db).others = db.others ∧
      (recreateChapters moduleId cs db).chapters = db.chapters ++ newChs ∧
      (recreateChapters moduleId cs db).lessons = db.lessons ++ newLs ∧
      db.nextId ≤ (recreateChapters moduleId cs db).nextId ∧
      (recreateChapters moduleId cs db).bounded ∧
      (∀ ch ∈ newChs, ch.moduleId = moduleId ∧ db.nextId ≤ ch.id) ∧
      (∀ l ∈ newLs, db.nextId ≤ l.chapterId ∧ db.nextId ≤ l.id) ∧
      (newChs.map (fun ch => ChapterOut.mk ch
        ((recreateChapters moduleId cs db).lessons.filter
          (fun ls => decide (ls.chapterId = ch.id))))).map ChapterOut.toInput = cs
  | [], db, hb, _ =>
    ⟨[], [], rfl, rfl, rfl, rfl, by rw [recreateChapters]; simp,
      by rw [recreateChapters]; simp, by rw [recreateChapters],
      by rw [recreateChapters]; exact hb, by simp, by simp, by simp⟩
  | chap :: rest, db, hb, hmid => by
    rw [recreateChapters]
    dsimp only
    set ch0 : Chapter :=
      { id := db.nextId, moduleId := moduleId, title := chap.title,
        orderIndex := chap.orderIndex } with hch0
    set db1 : DB := { db with chapters := db.chapters ++ [ch0], nextId := db.nextId + 1 }
      with hdb1
    have hb1 : db1.bounded := by
      obtain ⟨h1, h2, h3, h4⟩ := hb
      refine ⟨?_, ?_, ?_, ?_⟩
      · intro c hc
        exact Nat.lt_succ_of_lt (h1 c hc)
      · intro m hm
        exact ⟨Nat.lt_succ_of_lt (h2 m hm).1, Nat.lt_succ_of_lt (h2 m hm).2⟩
      · intro ch hc
        rcases List.mem_append.mp hc with hmem | hmem
        · exact ⟨Nat.lt_succ_of_lt (h3 ch hmem).1, Nat.lt_succ_of_lt (h3 ch hmem).2⟩
        · simp at hmem
          subst hmem
          exact ⟨Nat.lt_succ_self _, Nat.lt_succ_of_lt hmid⟩
      · intro l hl
        exact ⟨Nat.lt_succ_of_lt (h4 l hl).1, Nat.lt_succ_of_lt (h4 l hl).2⟩
    obtain ⟨newLs0, iu, ic, im, ich, io, il, inx, ibnd, imap⟩ :=
      insertLessons_spec ch0.id chap.lessons db1
    set dbA : DB := insertLessons ch0.id chap.lessons db1 with hdbA
    have hbA : dbA.bounded := bounded_insertLessons hb1 (Nat.lt_succ_self _)
    have hmidA : moduleId < dbA.nextId := by
      rw [inx]
      have : moduleId < db1.nextId := Nat.lt_succ_of_lt hmid
      omega
    obtain ⟨newChs', newLs', ru, rc, rm, ro, rch, rl, rnx, rbnd, rchs, rls, rmap⟩ :=
      recreateChapters_spec moduleId rest dbA hbA hmidA
    refine ⟨ch0 :: newChs', newLs0 ++ newLs', ?_, ?_, ?_, ?_, ?_, ?_, ?_, rbnd, ?_, ?_, ?_⟩
    · rw [ru, iu]
    · rw [rc, ic]
    · rw [rm, im]
    · rw [ro, io]
    · rw [rch, ich]
      simp [hdb1]
    · rw [rl, il]
      simp [hdb1]
    · have h1 : db.nextId ≤ db1.nextId := Nat.le_succ _
      have h2 : db1.nextId ≤ dbA.nextId := by
        rw [inx]; omega
      exact le_trans h1 (le_trans h2 rnx)
    · intro ch hc
      rcases List.mem_cons.mp hc with rfl | hmem
      · exact ⟨rfl, Nat.le_of_eq rfl⟩
      · rcases rchs ch hmem with ⟨hm1, hm2⟩
        refine ⟨hm1, ?_⟩
        have h2 : db1.nextId ≤ dbA.nextId := by
          rw [inx]
          have h3 : db1.nextId = db.nextId + 1 := rfl
          omega
        have h1 : db.nextId ≤ db1.nextId := Nat.le_succ _
        omega
    · intro l hl
      rcases List.mem_append.mp hl with hmem | hmem
      · have hc : l.chapterId = db.nextId := (ibnd l hmem).1
        have hidl := (ibnd l hmem).2.1
        have h3 : db1.nextId = db.nextId + 1 := rfl
        constructor <;> omega
      · have h1 := (rls l hmem).1
        have h1b := (rls l hmem).2
        have h3 : db1.nextId = db.nextId + 1 := rfl
        have h2 : db1.nextId ≤ dbA.nextId := by
          rw [inx]
          omega
        constructor <;> omega
    · rw [List.map_cons, List.map_cons]
      congr 1
      · -- head chapter reads back to `chap`
        have hfilter : (recreateChapters moduleId rest dbA).lessons.filter
            (fun ls => decide (ls.chapterId = ch0.id)) = newLs0 := by
          rw [rl, il]
          rw [List.filter_append, List.filter_append]
          have e1 : db1.lessons.filter (fun ls => decide (ls.chapterId = ch0.id)) = [] := by
            rw [List.filter_eq_nil_iff]
            intro l hl
            simp only [decide_eq_true_eq]
            have : l.chapterId < db.nextId := by
              have hmem : l ∈ db.lessons := hl
              exact (hb.2.2.2 l hmem).2
            omega
          have e2 : newLs0.filter (fun ls => decide (ls.chapterId = ch0.id)) = newLs0 := by
            rw [List.filter_eq_self]
            intro l hl
            simp only [decide_eq_true_eq]
            exact (ibnd l hl).1
          have e3 : newLs'.filter (fun ls => decide (ls.chapterId = ch0.id)) = [] := by
            rw [List.filter_eq_nil_iff]
            intro l hl
            simp only [decide_eq_true_eq]
            have h1 := (rls l hl).1
            have h3 : db1.nextId = db.nextId + 1 := rfl
            have h2 : db1.nextId ≤ dbA.nextId := by
              rw [inx]
              omega
            intro hcontra
            have h4 : l.chapterId = db.nextId := hcontra
            omega
          rw [e1, e2, e3]
          simp
        rw [hfilter]
        show ChapterInput.mk ch0.title ch0.orderIndex (newLs0.map Lesson.toInput) = chap
        rw [imap]

theorem recreateModules_spec (courseId : Nat) :
    ∀ (ms : List ModuleInput) (db : DB), db.bounded → courseId < db.nextId →
    ∃ (newMs : List Module) (newChs : List Chapter) (newLs : List Lesson),
      (recreateModules courseId ms db).users = db.users ∧
      (recreateModules courseId ms db).courses = db.courses ∧
      (recreateModules courseId ms db).others = db.others ∧
      (recreateModules courseId ms db).modules = db.modules ++ newMs ∧
      (recreateModules courseId ms db).chapters = db.chapters ++ newChs ∧
      (recreateModules courseId ms db).lessons = db.lessons ++ newLs ∧
      db.nextId ≤ (recreateModules courseId ms db).nextId ∧
      (recreateModules courseId ms db).bounded ∧
      (∀ m ∈ newMs, m.courseId = courseId ∧ db.nextId ≤ m.id) ∧
      (∀ ch ∈ newChs, db.nextId ≤ ch.moduleId ∧ db.nextId ≤ ch.id) ∧
      (∀ l ∈ newLs, db.nextId ≤ l.chapterId ∧ db.nextId ≤ l.id) ∧
      (newMs.map (fun m => ModuleOut.mk m
        (((recreateModules courseId ms db).chapters.filter
            (fun ch => decide (ch.moduleId = m.id))).map (fun ch => ChapterOut.mk ch
          ((recreateModules courseId ms db).lessons.filter
            (fun ls => decide (ls.chapterId = ch.id))))))).map ModuleOut.toInput = ms
  | [], db, hb, _ =>
    ⟨[], [], [], rfl, rfl, rfl, by rw [recreateModules]; simp,
      by rw [recreateModules]; simp, by rw [recreateModules]; simp,
      by rw [recreateModules], by rw [recreateModules]; exact hb,
      by simp, by simp, by simp, by simp⟩
  | m :: rest, db, hb, hcid => by
    rw [recreateModules]
    dsimp only
    set m0 : Module :=
      { id := db.nextId, courseId := courseId, title := m.title,
        orderIndex := m.orderIndex } with hm0
    set db1 : DB := { db with modules := db.modules ++ [m0], nextId := db.nextId + 1 }
      with hdb1
    have hb1 : db1.bounded := by
      obtain ⟨h1, h2, h3, h4⟩ := hb
      refine ⟨?_, ?_, ?_, ?_⟩
      · intro c hc
        exact Nat.lt_succ_of_lt (h1 c hc)
      · intro mm hm
        rcases List.mem_append.mp hm with hmem | hmem
        · exact ⟨Nat.lt_succ_of_lt (h2 mm hmem).1, Nat.lt_succ_of_lt (h2 mm hmem).2⟩
        · simp at hmem
          subst hmem
          exact ⟨Nat.lt_succ_self _, Nat.lt_succ_of_lt hcid⟩
      · intro ch hc
        exact ⟨Nat.lt_succ_of_lt (h3 ch hc).1, Nat.lt_succ_of_lt (h3 ch hc).2⟩
      · intro l hl
        exact ⟨Nat.lt_succ_of_lt (h4 l hl).1, Nat.lt_succ_of_lt (h4 l hl).2⟩
    obtain ⟨newChs0, newLs0, cu, cc, cm, co, cch, cl, cnx, cbnd, cchs, cls, cmap⟩ :=
      recreateChapters_spec m0.id m.chapters db1 hb1 (Nat.lt_succ_self _)
    set dbA : DB := recreateChapters m0.id m.chapters db1 with hdbA
    have hn1 : db1.nextId = db.nextId + 1 := rfl
    have hnA : db1.nextId ≤ dbA.nextId := cnx
    have hcidA : courseId < dbA.nextId := by omega
    obtain ⟨newMs', newChs', newLs', ru, rc, ro, rm, rch, rl, rnx, rbnd, rms, rchs, rls, rmap⟩ :=
      recreateModules_spec courseId rest dbA cbnd hcidA
    have hm0id : m0.id = db.nextId := rfl
    refine ⟨m0 :: newMs', newChs0 ++ newChs', newLs0 ++ newLs',
      ?_, ?_, ?_, ?_, ?_, ?_, ?_, rbnd, ?_, ?_, ?_, ?_⟩
    · rw [ru, cu]
    · rw [rc, cc]
    · rw [ro, co]
    · rw [rm, cm]
      simp [hdb1]
    · rw [rch, cch]
      simp [hdb1]
    · rw [rl, cl]
      simp [hdb1]
    · omega
    · intro mm hmem
      rcases List.mem_cons.mp hmem with rfl | hmem'
      · exact ⟨rfl, Nat.le_of_eq rfl⟩
      · rcases rms mm hmem' with ⟨hx1, hx2⟩
        exact ⟨hx1, by omega⟩
    · intro ch hmem
      rcases List.mem_append.mp hmem with hmem' | hmem'
      · rcases cchs ch hmem' with ⟨hx1, hx2⟩
        have : ch.moduleId = db.nextId := by rw [hx1, hm0id]
        exact ⟨Nat.le_of_eq this.symm, by omega⟩
      · rcases rchs ch hmem' with ⟨hx1, hx2⟩
        exact ⟨by omega, by omega⟩
    · intro l hmem
      rcases List.mem_append.mp hmem with hmem' | hmem'
      · have h1 := (cls l hmem').1
        have h2 := (cls l hmem').2
        constructor <;> omega
      · have h1 := (rls l hmem').1
        have h2 := (rls l hmem').2
        constructor <;> omega
    · rw [List.map_cons, List.map_cons]
      congr 1
      have hchfilter : (recreateModules courseId rest dbA).chapters.filter
          (fun ch => decide (ch.moduleId = m0.id)) = newChs0 := by
        rw [rch, cch]
        rw [List.filter_append, List.filter_append]
        have e1 : db1.chapters.filter (fun ch => decide (ch.moduleId = m0.id)) = [] := by
          rw [List.filter_eq_nil_iff]
          intro ch hc
          simp only [decide_eq_true_eq]
          have hmem : ch ∈ db.chapters := hc
          have := (hb.2.2.1 ch hmem).2
          omega
        have e2 : newChs0.filter (fun ch => decide (ch.moduleId = m0.id)) = newChs0 := by
          rw [List.filter_eq_self]
          intro ch hc
          simp only [decide_eq_true_eq]
          exact (cchs ch hc).1
        have e3 : newChs'.filter (fun ch => decide (ch.moduleId = m0.id)) = [] := by
          rw [List.filter_eq_nil_iff]
          intro ch hc
          simp only [decide_eq_true_eq]
          have h7 := (rchs ch hc).1
          intro hcontra
          rw [hcontra] at h7
          omega
        rw [e1, e2, e3]
        simp
      rw [hchfilter]
      have hinner : newChs0.map (fun ch => ChapterOut.mk ch
          ((recreateModules courseId rest dbA).lessons.filter
            (fun ls => decide (ls.chapterId = ch.id)))) =
          newChs0.map (fun ch => ChapterOut.mk ch
          (dbA.lessons.filter (fun ls => decide (ls.chapterId = ch.id)))) := by
        apply List.map_congr_left
        intro ch hc
        congr 1
        rw [rl, List.filter_append]
        have e4 : newLs'.filter (fun ls => decide (ls.chapterId = ch.id)) = [] := by
          rw [List.filter_eq_nil_iff]
          intro l hl
          simp only [decide_eq_true_eq]
          have h5 := (rls l hl).1
          have hchmem : ch ∈ dbA.chapters := by
            rw [cch]
            exact List.mem_append_right _ hc
          have h6 := (cbnd.2.2.1 ch hchmem).1
          omega
        rw [e4]
        simp
      rw [hinner]
      show ModuleInput.mk m0.title m0.orderIndex
        ((newChs0.map (fun ch => ChapterOut.mk ch
          (dbA.lessons.filter (fun ls => decide (ls.chapterId = ch.id))))).map
            ChapterOut.toInput) = m
      rw [cmap]

/-! ### The create loops agree with the recreate loops on success -/

theorem createLessons_ok_eq {chapTitle : String} {chapterId : Nat} :
    ∀ {seen : List String} {ls : List LessonInput} {db : DB},
      (createLessons chapTitle chapterId seen ls db).1 = .ok () →
      (createLessons chapTitle chapterId seen ls db).2 = insertLessons chapterId ls db
  | _, [], _, _ => by rw [createLessons, insertLessons]
  | seen, les :: rest, db, h => by
    by_cases h1 : les.title ∈ seen
    · rw [createLessons, if_pos h1] at h
      simp at h
    · by_cases h2 : ∃ l ∈ db.lessons, l.chapterId = chapterId ∧ l.title = les.title
      · rw [createLessons, if_neg h1, if_pos h2] at h
        simp at h
      · rw [createLessons, if_neg h1, if_neg h2] at h ⊢
        rw [insertLessons]
        exact createLessons_ok_eq h

theorem createChapters_ok_eq {modTitle : String} {moduleId : Nat} :
    ∀ {seen : List String} {cs : List ChapterInput} {db : DB},
      (createChapters modTitle moduleId seen cs db).1 = .ok () →
      (createChapters modTitle moduleId seen cs db).2 = recreateChapters moduleId cs db
  | _, [], _, _ => by rw [createChapters, recreateChapters]
  | seen, chap :: rest, db, h => by
    by_cases h1 : chap.title ∈ seen
    · rw [createChapters, if_pos h1] at h
      simp at h
    · by_cases h2 : ∃ c ∈ db.chapters, c.moduleId = moduleId ∧ c.title = chap.title
      · rw [createChapters, if_neg h1, if_pos h2] at h
        simp at h
      · rw [createChapters, if_neg h1, if_neg h2] at h ⊢
        dsimp only at h ⊢
        split at h
        · simp at h
        · rename_i u db2 hE
          cases u
          rw [recreateChapters]
          dsimp only
          have h1' := congrArg Prod.fst hE
          dsimp only at h1'
          have h2' := congrArg Prod.snd hE
          dsimp only at h2'
          have hdb2 := (createLessons_ok_eq h1').symm.trans h2'
          rw [hdb2]
          exact createChapters_ok_eq h

theorem createModules_ok_eq {courseId : Nat} :
    ∀ {seen : List String} {ms : List ModuleInput} {db : DB},
      (createModules courseId seen ms db).1 = .ok () →
      (createModules courseId seen ms db).2 = recreateModules courseId ms db
  | _, [], _, _ => by rw [createModules, recreateModules]
  | seen, m :: rest, db, h => by
    by_cases h1 : m.title ∈ seen
    · rw [createModules, if_pos h1] at h
      simp at h
    · by_cases h2 : ∃ m0 ∈ db.modules, m0.courseId = courseId ∧ m0.title = m.title
      · rw [createModules, if_neg h1, if_pos h2] at h
        simp at h
      · rw [createModules, if_neg h1, if_neg h2] at h ⊢
        dsimp only at h ⊢
        split at h
        · simp at h
        · rename_i u db2 hE
          cases u
          rw [recreateModules]
          dsimp only
          have h1' := congrArg Prod.fst hE
          dsimp only at h1'
          have h2' := congrArg Prod.snd hE
          dsimp only at h2'
          have hdb2 := (createChapters_ok_eq h1').symm.trans h2'
          rw [hdb2]
          exact createModules_ok_eq h

/-! ### The create loops never touch the courses collection, and only
throw Conflict errors -/

theorem createLessons_snd_courses {chapTitle : String} {chapterId : Nat} :
    ∀ {seen : List String} {ls : List LessonInput} {db : DB},
      ((createLessons chapTitle chapterId seen ls db).2).courses = db.courses
  | _, [], db => by rw [createLessons]
  | seen, les :: rest, db => by
    by_cases h1 : les.title ∈ seen
    · rw [createLessons, if_pos h1]
    · by_cases h2 : ∃ l ∈ db.lessons, l.chapterId = chapterId ∧ l.title = les.title
      · rw [createLessons, if_neg h1, if_pos h2]
      · rw [createLessons, if_neg h1, if_neg h2]
        exact createLessons_snd_courses

theorem createChapters_snd_courses {modTitle : String} {moduleId : Nat} :
    ∀ {seen : List String} {cs : List ChapterInput} {db : DB},
      ((createChapters modTitle moduleId seen cs db).2).courses = db.courses
  | _, [], db => by rw [createChapters]
  | seen, chap :: rest, db => by
    by_cases h1 : chap.title ∈ seen
    · rw [createChapters, if_pos h1]
    · by_cases h2 : ∃ c ∈ db.chapters, c.moduleId = moduleId ∧ c.title = chap.title
      · rw [createChapters, if_neg h1, if_pos h2]
      · rw [createChapters, if_neg h1, if_neg h2]
        dsimp only
        split
        · rename_i e db2 hE
          have h2' := congrArg Prod.snd hE
          dsimp only at h2'
          show db2.courses = db.courses
          rw [← h2']
          exact createLessons_snd_courses
        · rename_i u db2 hE
          have h2' := congrArg Prod.snd hE
          dsimp only at h2'
          have hc : db2.courses = db.courses := by
            rw [← h2']
            exact createLessons_snd_courses
          rw [createChapters_snd_courses, hc]

theorem createModules_snd_courses {courseId : Nat} :
    ∀ {seen : List String} {ms : List ModuleInput} {db : DB},
      ((createModules courseId seen ms db).2).courses = db.courses
  | _, [], db => by rw [createModules]
  | seen, m :: rest, db => by
    by_cases h1 : m.title ∈ seen
    · rw [createModules, if_pos h1]
    · by_cases h2 : ∃ m0 ∈ db.modules, m0.courseId = courseId ∧ m0.title = m.title
      · rw [createModules, if_neg h1, if_pos h2]
      · rw [createModules, if_neg h1, if_neg h2]
        dsimp only
        split
        · rename_i e db2 hE
          have h2' := congrArg Prod.snd hE
          dsimp only at h2'
          show db2.courses = db.courses
          rw [← h2']
          exact createChapters_snd_courses
        · rename_i u db2 hE
          have h2' := congrArg Prod.snd hE
          dsimp only at h2'
          have hc : db2.courses = db.courses := by
            rw [← h2']
            exact createChapters_snd_courses
          rw [createModules_snd_courses, hc]

theorem createLessons_error_conflict {chapTitle : String} {chapterId : Nat} :
    ∀ {seen : List String} {ls : List LessonInput} {db : DB} {e : Err},
      (createLessons chapTitle chapterId seen ls db).1 = .error e → ∃ msg, e = .conflict msg
  | _, [], db, e => by
    rw [createLessons]
    intro h
    simp at h
  | seen, les :: rest, db, e => by
    by_cases h1 : les.title ∈ seen
    · rw [createLessons, if_pos h1]
      intro h
      simp at h
      exact ⟨_, h.symm⟩
    · by_cases h2 : ∃ l ∈ db.lessons, l.chapterId = chapterId ∧ l.title = les.title
      · rw [createLessons, if_neg h1, if_pos h2]
        intro h
        simp at h
        exact ⟨_, h.symm⟩
      · rw [createLessons, if_neg h1, if_neg h2]
        exact createLessons_error_conflict

theorem createChapters_error_conflict {modTitle : String} {moduleId : Nat} :
    ∀ {seen : List String} {cs : List ChapterInput} {db : DB} {e : Err},
      (createChapters modTitle moduleId seen cs db).1 = .error e → ∃ msg, e = .conflict msg
  | _, [], db, e => by
    rw [createChapters]
    intro h
    simp at h
  | seen, chap :: rest, db, e => by
    by_cases h1 : chap.title ∈ seen
    · rw [createChapters, if_pos h1]
      intro h
      simp at h
      exact ⟨_, h.symm⟩
    · by_cases h2 : ∃ c ∈ db.chapters, c.moduleId = moduleId ∧ c.title = chap.title
      · rw [createChapters, if_neg h1, if_pos h2]
        intro h
        simp at h
        exact ⟨_, h.symm⟩
      · rw [createChapters, if_neg h1, if_neg h2]
        dsimp only
        split
        · rename_i e0 db2 hE
          intro h
          simp at h
          subst h
          have h1' := congrArg Prod.fst hE
          dsimp only at h1'
          exact createLessons_error_conflict h1'
        · rename_i u db2 hE
          exact createChapters_error_conflict

theorem createModules_error_conflict {courseId : Nat} :
    ∀ {seen : List String} {ms : List ModuleInput} {db : DB} {e : Err},
      (createModules courseId seen ms db).1 = .error e → ∃ msg, e = .conflict msg
  | _, [], db, e => by
    rw [createModules]
    intro h
    simp at h
  | seen, m :: rest, db, e => by
    by_cases h1 : m.title ∈ seen
    · rw [createModules, if_pos h1]
      intro h
      simp at h
      exact ⟨_, h.symm⟩
    · by_cases h2 : ∃ m0 ∈ db.modules, m0.courseId = courseId ∧ m0.title = m.title
      · rw [createModules, if_neg h1, if_pos h2]
        intro h
        simp at h
        exact ⟨_, h.symm⟩
      · rw [createModules, if_neg h1, if_neg h2]
        dsimp only
        split
        · rename_i e0 db2 hE
          intro h
          simp at h
          subst h
          have h1' := congrArg Prod.fst hE
          dsimp only at h1'
          exact createChapters_error_conflict h1'
        · rename_i u db2 hE
          exact createModules_error_conflict

/-- With a duplicate module title in the request (or a title already
consumed into the seen-set), the module loop can never succeed. -/
theorem createModules_not_ok {courseId : Nat} :
    ∀ {seen : List String} {ms : List ModuleInput} {db : DB},
      ((∃ t ∈ ms.map (fun m => m.title), t ∈ seen) ∨
        ¬ (ms.map (fun m => m.title)).Nodup) →
      (createModules courseId seen ms db).1 ≠ .ok ()
  | seen, [], db, hyp => by
    rcases hyp with ⟨t, ht, _⟩ | hnd
    · simp at ht
    · simp at hnd
  | seen, m :: rest, db, hyp => by
    by_cases h1 : m.title ∈ seen
    · rw [createModules, if_pos h1]
      simp
    · by_cases h2 : ∃ m0 ∈ db.modules, m0.courseId = courseId ∧ m0.title = m.title
      · rw [createModules, if_neg h1, if_pos h2]
        simp
      · rw [createModules, if_neg h1, if_neg h2]
        dsimp only
        split
        · simp
        · rename_i u db2 hE
          apply createModules_not_ok
          rcases hyp with ⟨t, ht, hts⟩ | hnd
          · rw [List.map_cons] at ht
            rcases List.mem_cons.mp ht with rfl | ht'
            · exact absurd hts h1
            · exact Or.inl ⟨t, ht', List.mem_cons_of_mem _ hts⟩
          · rw [List.map_cons, List.nodup_cons] at hnd
            by_cases hmem : m.title ∈ rest.map (fun m => m.title)
            · exact Or.inl ⟨m.title, hmem, List.mem_cons_self _ _⟩
            · refine Or.inr (fun hnd' => hnd ⟨hmem, hnd'⟩)

/-! ### Success of the create loops under payload-wide title uniqueness -/

theorem createLessons_ok {chapTitle : String} {chapterId : Nat} :
    ∀ {seen : List String} {ls : List LessonInput} {db : DB},
      (∀ l ∈ db.lessons, l.chapterId = chapterId → l.title ∈ seen) →
      (∀ li ∈ ls, li.title ∉ seen) →
      (ls.map (fun li => li.title)).Nodup →
      (createLessons chapTitle chapterId seen ls db).1 = .ok ()
  | _, [], _, _, _, _ => by rw [createLessons]
  | seen, les :: rest, db, hdb, hseen, hnd => by
    have h1 : les.title ∉ seen := hseen les (List.mem_cons_self _ _)
    have h2 : ¬ ∃ l ∈ db.lessons, l.chapterId = chapterId ∧ l.title = les.title := by
      rintro ⟨l, hl, hc, ht⟩
      exact h1 (ht ▸ hdb l hl hc)
    rw [createLessons, if_neg h1, if_neg h2]
    rw [List.map_cons, List.nodup_cons] at hnd
    apply createLessons_ok
    · intro l hl hc
      rcases List.mem_append.mp hl with hmem | hmem
      · exact List.mem_cons_of_mem _ (hdb l hmem hc)
      · simp at hmem
        subst hmem
        exact List.mem_cons_self _ _
    · intro li hli
      rw [List.mem_cons]
      rintro (heq | hmem)
      · exact hnd.1 (heq ▸ List.mem_map_of_mem (fun li => li.title) hli)
      · exact hseen li (List.mem_cons_of_mem _ hli) hmem
    · exact hnd.2

theorem bounded_addChapter {db : DB} (hb : db.bounded) {mid : Nat} (hmid : mid < db.nextId) :
    (DB.mk db.users db.courses db.modules
      (db.chapters ++ [Chapter.mk db.nextId mid t oi]) db.lessons db.others
      (db.nextId + 1)).bounded := by
  obtain ⟨h1, h2, h3, h4⟩ := hb
  refine ⟨?_, ?_, ?_, ?_⟩
  · intro c hc
    exact Nat.lt_succ_of_lt (h1 c hc)
  · intro m hm
    exact ⟨Nat.lt_succ_of_lt (h2 m hm).1, Nat.lt_succ_of_lt (h2 m hm).2⟩
  · intro ch hc
    rcases List.mem_append.mp hc with hmem | hmem
    · exact ⟨Nat.lt_succ_of_lt (h3 ch hmem).1, Nat.lt_succ_of_lt (h3 ch hmem).2⟩
    · simp at hmem
      subst hmem
      exact ⟨Nat.lt_succ_self _, Nat.lt_succ_of_lt hmid⟩
  · intro l hl
    exact ⟨Nat.lt_succ_of_lt (h4 l hl).1, Nat.lt_succ_of_lt (h4 l hl).2⟩

theorem bounded_addModule {db : DB} (hb : db.bounded) {cid : Nat} (hcid : cid < db.nextId) :
    (DB.mk db.users db.courses (db.modules ++ [Module.mk db.nextId cid t oi])
      db.chapters db.lessons db.others (db.nextId + 1)).bounded := by
  obtain ⟨h1, h2, h3, h4⟩ := hb
  refine ⟨?_, ?_, ?_, ?_⟩
  · intro c hc
    exact Nat.lt_succ_of_lt (h1 c hc)
  · intro m hm
    rcases List.mem_append.mp hm with hmem | hmem
    · exact ⟨Nat.lt_succ_of_lt (h2 m hmem).1, Nat.lt_succ_of_lt (h2 m hmem).2⟩
    · simp at hmem
      subst hmem
      exact ⟨Nat.lt_succ_self _, Nat.lt_succ_of_lt hcid⟩
  · intro ch hc
    exact ⟨Nat.lt_succ_of_lt (h3 ch hc).1, Nat.lt_succ_of_lt (h3 ch hc).2⟩
  · intro l hl
    exact ⟨Nat.lt_succ_of_lt (h4 l hl).1, Nat.lt_succ_of_lt (h4 l hl).2⟩

theorem createChapters_ok {modTitle : String} {moduleId : Nat} :
    ∀ {seen : List String} {cs : List ChapterInput} {db : DB},
      db.bounded → moduleId < db.nextId →
      (∀ c ∈ db.chapters, c.moduleId = moduleId → c.title ∈ seen) →
      (∀ ci ∈ cs, ci.title ∉ seen) →
      (cs.map (fun c => c.title)).Nodup →
      (∀ ci ∈ cs, (ci.lessons.map (fun l => l.title)).Nodup) →
      (createChapters modTitle moduleId seen cs db).1 = .ok ()
  | _, [], _, _, _, _, _, _, _ => by rw [createChapters]
  | seen, chap :: rest, db, hb, hmid, hdb, hseen, hnd, hlnd => by
    have h1 : chap.title ∉ seen := hseen chap (List.mem_cons_self _ _)
    have h2 : ¬ ∃ c ∈ db.chapters, c.moduleId = moduleId ∧ c.title = chap.title := by
      rintro ⟨c, hc, hm, ht⟩
      exact h1 (ht ▸ hdb c hc hm)
    rw [createChapters, if_neg h1, if_neg h2]
    dsimp only
    have hlok : (createLessons chap.title db.nextId [] chap.lessons
        { db with
          chapters := db.chapters ++
            [{ id := db.nextId, moduleId := moduleId, title := chap.title,
               orderIndex := chap.orderIndex }],
          nextId := db.nextId + 1 }).1 = .ok () := by
      apply createLessons_ok
      · intro l hl hc
        have hmem : l ∈ db.lessons := hl
        have := (hb.2.2.2 l hmem).2
        have hid : l.chapterId = db.nextId := hc
        omega
      · intro li _
        simp
      · exact hlnd chap (List.mem_cons_self _ _)
    split
    · rename_i e db2 hE
      have h1' := congrArg Prod.fst hE
      dsimp only at h1'
      rw [hlok] at h1'
      simp at h1'
    · rename_i u db2 hE
      cases u
      have h1' := congrArg Prod.fst hE
      dsimp only at h1'
      have h2' := congrArg Prod.snd hE
      dsimp only at h2'
      have hdb2 : db2 = insertLessons db.nextId chap.lessons
          { db with
            chapters := db.chapters ++
              [{ id := db.nextId, moduleId := moduleId, title := chap.title,
                 orderIndex := chap.orderIndex }],
            nextId := db.nextId + 1 } := by
        rw [← h2']
        exact createLessons_ok_eq h1'
      obtain ⟨newLs, iu, ic, im, ich, io, il, inx, ibnd, imap⟩ :=
        insertLessons_spec db.nextId chap.lessons
          { db with
            chapters := db.chapters ++
              [{ id := db.nextId, moduleId := moduleId, title := chap.title,
                 orderIndex := chap.orderIndex }],
            nextId := db.nextId + 1 }
      rw [List.map_cons, List.nodup_cons] at hnd
      apply createChapters_ok
      · rw [hdb2]
        apply bounded_insertLessons
        · exact bounded_addChapter hb hmid
        · exact Nat.lt_succ_self _
      · rw [hdb2, inx]
        have : db.nextId + 1 = ({ db with
            chapters := db.chapters ++
              [{ id := db.nextId, moduleId := moduleId, title := chap.title,
                 orderIndex := chap.orderIndex }],
            nextId := db.nextId + 1 } : DB).nextId := rfl
        omega
      · intro c hc
        rw [hdb2, ich] at hc
        rcases List.mem_append.mp hc with hmem | hmem
        · intro hm
          exact List.mem_cons_of_mem _ (hdb c hmem hm)
        · simp at hmem
          subst hmem
          intro _
          exact List.mem_cons_self _ _
      · intro ci hci
        rw [List.mem_cons]
        rintro (heq | hmem)
        · exact hnd.1 (heq ▸ List.mem_map_of_mem (fun c => c.title) hci)
        · exact hseen ci (List.mem_cons_of_mem _ hci) hmem
      · exact hnd.2
      · intro ci hci
        exact hlnd ci (List.mem_cons_of_mem _ hci)

theorem createModules_ok {courseId : Nat} :
    ∀ {seen : List String} {ms : List ModuleInput} {db : DB},
      db.bounded → courseId < db.nextId →
      (∀ m0 ∈ db.modules, m0.courseId = courseId → m0.title ∈ seen) →
      (∀ mi ∈ ms, mi.title ∉ seen) →
      (ms.map (fun m => m.title)).Nodup →
      (∀ mi ∈ ms, (mi.chapters.map (fun c => c.title)).Nodup) →
      (∀ mi ∈ ms, ∀ ci ∈ mi.chapters, (ci.lessons.map (fun l => l.title)).Nodup) →
      (createModules courseId seen ms db).1 = .ok ()
  | _, [], _, _, _, _, _, _, _, _ => by rw [createModules]
  | seen, m :: rest, db, hb, hcid, hdb, hseen, hnd, hcnd, hlnd => by
    have h1 : m.title ∉ seen := hseen m (List.mem_cons_self _ _)
    have h2 : ¬ ∃ m0 ∈ db.modules, m0.courseId = courseId ∧ m0.title = m.title := by
      rintro ⟨m0, hm0, hc, ht⟩
      exact h1 (ht ▸ hdb m0 hm0 hc)
    rw [createModules, if_neg h1, if_neg h2]
    dsimp only
    have hbig : ({ db with
        modules := db.modules ++
          [{ id := db.nextId, courseId := courseId, title := m.title,
             orderIndex := m.orderIndex }],
        nextId := db.nextId + 1 } : DB).bounded := bounded_addModule hb hcid
    have hcok : (createChapters m.title db.nextId [] m.chapters
        { db with
          modules := db.modules ++
            [{ id := db.nextId, courseId := courseId, title := m.title,
               orderIndex := m.orderIndex }],
          nextId := db.nextId + 1 }).1 = .ok () := by
      apply createChapters_ok hbig (Nat.lt_succ_self _)
      · intro c hc hm
        have hmem : c ∈ db.chapters := hc
        have := (hb.2.2.1 c hmem).2
        have hid : c.moduleId = db.nextId := hm
        omega
      · intro ci _
        simp
      · exact hcnd m (List.mem_cons_self _ _)
      · exact hlnd m (List.mem_cons_self _ _)
    split
    · rename_i e db2 hE
      have h1' := congrArg Prod.fst hE
      dsimp only at h1'
      rw [hcok] at h1'
      simp at h1'
    · rename_i u db2 hE
      cases u
      have h1' := congrArg Prod.fst hE
      dsimp only at h1'
      have h2' := congrArg Prod.snd hE
      dsimp only at h2'
      have hdb2 : db2 = recreateChapters db.nextId m.chapters
          { db with
            modules := db.modules ++
              [{ id := db.nextId, courseId := courseId, title := m.title,
                 orderIndex := m.orderIndex }],
            nextId := db.nextId + 1 } := by
        rw [← h2']
        exact createChapters_ok_eq h1'
      obtain ⟨newChs, newLs, cu, cc, cm, co, cch, cl, cnx, cbnd, cchs, cls, cmap⟩ :=
        recreateChapters_spec db.nextId m.chapters
          { db with
            modules := db.modules ++
              [{ id := db.nextId, courseId := courseId, title := m.title,
                 orderIndex := m.orderIndex }],
            nextId := db.nextId + 1 } hbig (Nat.lt_succ_self _)
      rw [List.map_cons, List.nodup_cons] at hnd
      apply createModules_ok
      · rw [hdb2]
        exact cbnd
      · rw [hdb2]
        have h3 : ({ db with
            modules := db.modules ++
              [{ id := db.nextId, courseId := courseId, title := m.title,
                 orderIndex := m.orderIndex }],
            nextId := db.nextId + 1 } : DB).nextId = db.nextId + 1 := rfl
        omega
      · intro m0 hm0
        rw [hdb2, cm] at hm0
        rcases List.mem_append.mp hm0 with hmem | hmem
        · intro hc
          exact List.mem_cons_of_mem _ (hdb m0 hmem hc)
        · simp at hmem
          subst hmem
          intro _
          exact List.mem_cons_self _ _
      · intro mi hmi
        rw [List.mem_cons]
        rintro (heq | hmem)
        · exact hnd.1 (heq ▸ List.mem_map_of_mem (fun m => m.title) hmi)
        · exact hseen mi (List.mem_cons_of_mem _ hmi) hmem
      · exact hnd.2
      · intro mi hmi
        exact hcnd mi (List.mem_cons_of_mem _ hmi)
      · intro mi hmi
        exact hlnd mi (List.mem_cons_of_mem _ hmi)

/-! ### Claim theorems -/

/-- Claim C5: `checkDependencies(entityLabel, targetId, referenceFieldNames)`
throws a Conflict error whose message names `entityLabel` if and only if
some registered collection contains a document with some field named in
`referenceFieldNames` equal to `targetId`; when no such document exists it
returns normally; in either case the database state is unchanged
(read-only scan). -/
theorem checkDependencies_conflict_iff (docName : String) (targetId : Nat)
    (refFields : List String) (db : DB) :
    ((checkDependencies docName targetId refFields db).1 =
        .error (.conflict ("Can\x27t delete this " ++ docName ++ " as dependencies found")) ↔
      depExists targetId refFields db) ∧
    ((checkDependencies docName targetId refFields db).1 = .ok () ↔
      ¬ depExists targetId refFields db) ∧
    (checkDependencies docName targetId refFields db).2 = db := by
  unfold checkDependencies
  by_cases h : depExists targetId refFields db
  · rw [if_pos h]
    refine ⟨⟨fun _ => h, fun _ => rfl⟩, ⟨?_, ?_⟩, rfl⟩
    · intro hok
      simp at hok
    · intro hn
      exact absurd h hn
  · rw [if_neg h]
    refine ⟨⟨?_, ?_⟩, ⟨fun _ => h, fun _ => rfl⟩, rfl⟩
    · intro he
      simp at he
    · intro hd
      exact absurd hd h

/-- Claim C6: if any document in any collection references module `M` via a
field named `courseId` holding `M`'s id, then `deleteModule` on `M` fails
with a Conflict error and the state — in particular the Module document —
is unchanged. -/
theorem deleteModule_blocked {db : DB} {m : Module} {mid : Nat}
    (hm : m ∈ db.modules) (hid : m.id = mid)
    (href : ∃ doc ∈ db.others, ("courseId", mid) ∈ doc) :
    deleteModule mid db =
      (.error (.conflict ("Can\x27t delete this Course as dependencies found")), db) := by
  have hdep : depExists mid ["courseId"] db := by
    rcases href with ⟨doc, hdoc, hfield⟩
    refine ⟨doc, ?_, "courseId", List.mem_singleton_self _, hfield⟩
    unfold DB.allRefDocs
    exact List.mem_append_right _ hdoc
  unfold deleteModule
  rw [if_pos ⟨m, hm, hid⟩]
  unfold checkDependencies
  rw [if_pos hdep]
  rfl

/-- Claim C6 witness at a concrete state: a single module with id 2 and an
external document carrying `courseId = 2`. -/
theorem deleteModule_blocked_witness :
    deleteModule 2 (DB.mk [] [] [Module.mk 2 1 "B" 1] [] [] [[("courseId", 2)]] 6) =
      (.error (.conflict "Can\x27t delete this Course as dependencies found"),
        DB.mk [] [] [Module.mk 2 1 "B" 1] [] [] [[("courseId", 2)]] 6) :=
  deleteModule_blocked (List.mem_singleton_self _) rfl
    ⟨[("courseId", 2)], List.mem_singleton_self _, List.mem_singleton_self _⟩

/-- Claim C10: standalone `deleteChapter` removes exactly the targeted
Chapter document and nothing else: it succeeds with no dependency check of
any kind (the state of `others` is irrelevant), and all lessons —
including those whose `chapterId` equals the deleted chapter's id — are
left untouched (orphaned). -/
theorem deleteChapter_non_cascading {db : DB} {ch : Chapter} {cid : Nat}
    (hwf : db.WF) (hm : ch ∈ db.chapters) (hid : ch.id = cid) :
    ∃ db', deleteChapter cid db = (.ok (), db') ∧
      db'.lessons = db.lessons ∧ db'.modules = db.modules ∧
      db'.courses = db.courses ∧ db'.users = db.users ∧ db'.others = db.others ∧
      db'.nextId = db.nextId ∧
      (∀ c ∈ db.chapters, c.id ≠ cid → c ∈ db'.chapters) ∧
      (∀ c ∈ db'.chapters, c ∈ db.chapters) ∧
      (∀ c ∈ db'.chapters, c.id ≠ cid) ∧
      db'.chapters.length + 1 = db.chapters.length := by
  unfold deleteChapter
  rw [if_pos ⟨ch, hm, hid⟩]
  refine ⟨_, rfl, rfl, rfl, rfl, rfl, rfl, rfl, ?_, ?_, ?_, ?_⟩
  · intro c hc hne
    exact mem_removeFirst_of_not_pred hc hne
  · intro c hc
    exact mem_of_mem_removeFirst hc
  · intro c hc
    exact not_key_of_mem_removeFirst hwf.2.2.2.1 hc
  · exact length_removeFirst_of_mem ⟨ch, hm, hid⟩

/-- Claim C10 witness at a concrete state: deleting chapter 4 leaves its
lesson (chapterId 4) and the external reference untouched. -/
theorem deleteChapter_non_cascading_witness :
    ∃ db', deleteChapter 4
        (DB.mk [] [] [] [Chapter.mk 4 2 "X" 5]
          [Lesson.mk 7 4 "l" "video" "u" 1 0] [[("chapterId", 4)]] 8) = (.ok (), db') ∧
      db'.lessons = [Lesson.mk 7 4 "l" "video" "u" 1 0] ∧ db'.modules = [] ∧
      db'.courses = [] ∧ db'.users = [] ∧ db'.others = [[("chapterId", 4)]] ∧
      db'.nextId = 8 ∧
      (∀ c ∈ [Chapter.mk 4 2 "X" 5], c.id ≠ 4 → c ∈ db'.chapters) ∧
      (∀ c ∈ db'.chapters, c ∈ [Chapter.mk 4 2 "X" 5]) ∧
      (∀ c ∈ db'.chapters, c.id ≠ 4) ∧
      db'.chapters.length + 1 = [Chapter.mk 4 2 "X" 5].length :=
  deleteChapter_non_cascading (by decide) (List.mem_singleton_self _) rfl

/-- Claim C4: for an existing course, `deleteCourseWithHierarchy` succeeds
unconditionally — no reference check is consulted, so arbitrary external
references (`others`) never block it and are left unchanged — and the
final state has the course document removed and its modules, chapters (by
module id) and lessons (by chapter id) removed bottom-up, everything else
preserved. -/
theorem deleteCourseWithHierarchy_spec {db : DB} {c : Course} {cid : Nat}
    (hwf : db.WF) (hc : c ∈ db.courses) (hid : c.id = cid) :
    ∃ db', deleteCourseWithHierarchy cid db = (.ok (), db') ∧
      db'.users = db.users ∧ db'.others = db.others ∧ db'.nextId = db.nextId ∧
      db'.modules = db.modules.filter (fun m => decide (m.courseId ≠ cid)) ∧
      db'.chapters = db.chapters.filter (fun ch => decide (ch.moduleId ∉
        (db.modules.filter (fun m => decide (m.courseId = cid))).map (fun m => m.id))) ∧
      db'.lessons = db.lessons.filter (fun l => decide (l.chapterId ∉
        ((db.chapters.filter (fun ch => decide (ch.moduleId ∈
          (db.modules.filter (fun m => decide (m.courseId = cid))).map (fun m => m.id)))).map
            (fun ch => ch.id)))) ∧
      (∀ c0 ∈ db'.courses, c0.id ≠ cid) ∧
      (∀ c0 ∈ db.courses, c0.id ≠ cid → c0 ∈ db'.courses) ∧
      db'.courses.length + 1 = db.courses.length := by
  have hfind : (db.courses.find? (fun c0 => decide (c0.id = cid))).isSome :=
    List.find?_isSome.mpr ⟨c, hc, by simp [hid]⟩
  obtain ⟨c', hc'⟩ := Option.isSome_iff_exists.mp hfind
  unfold deleteCourseWithHierarchy
  rw [hc']
  refine ⟨_, rfl, rfl, rfl, rfl, rfl, rfl, rfl, ?_, ?_, ?_⟩
  · intro c0 hc0
    exact not_key_of_mem_removeFirst hwf.2.1 hc0
  · intro c0 hc0 hne
    exact mem_removeFirst_of_not_pred hc0 hne
  · exact length_removeFirst_of_mem ⟨c, hc, hid⟩

/-- Claim C4 witness at a concrete state with external references to the
course and to one of its chapters: the delete still succeeds and empties
the subtree. -/
theorem deleteCourseWithHierarchy_spec_witness :
    ∃ db', deleteCourseWithHierarchy 1
        (DB.mk [] [Course.mk 1 "T" "" 0 true]
          [Module.mk 2 1 "B" 1, Module.mk 3 1 "A" 0]
          [Chapter.mk 4 2 "X" 5, Chapter.mk 5 2 "Y" 2]
          [Lesson.mk 7 4 "l" "video" "u" 1 0]
          [[("courseId", 1)], [("chapterId", 4)]] 8) = (.ok (), db') ∧
      db'.users = [] ∧ db'.others = [[("courseId", 1)], [("chapterId", 4)]] ∧
      db'.nextId = 8 ∧
      db'.modules = List.filter (fun m => decide (m.courseId ≠ 1))
        [Module.mk 2 1 "B" 1, Module.mk 3 1 "A" 0] ∧
      db'.chapters = List.filter (fun ch => decide (ch.moduleId ∉
        (List.filter (fun m => decide (m.courseId = 1))
          [Module.mk 2 1 "B" 1, Module.mk 3 1 "A" 0]).map (fun m => m.id)))
        [Chapter.mk 4 2 "X" 5, Chapter.mk 5 2 "Y" 2] ∧
      db'.lessons = List.filter (fun l => decide (l.chapterId ∉
        ((List.filter (fun ch => decide (ch.moduleId ∈
          (List.filter (fun m => decide (m.courseId = 1))
            [Module.mk 2 1 "B" 1, Module.mk 3 1 "A" 0]).map (fun m => m.id)))
          [Chapter.mk 4 2 "X" 5, Chapter.mk 5 2 "Y" 2]).map (fun ch => ch.id))))
        [Lesson.mk 7 4 "l" "video" "u" 1 0] ∧
      (∀ c0 ∈ db'.courses, c0.id ≠ 1) ∧
      (∀ c0 ∈ [Course.mk 1 "T" "" 0 true], c0.id ≠ 1 → c0 ∈ db'.courses) ∧
      db'.courses.length + 1 = [Course.mk 1 "T" "" 0 true].length :=
  deleteCourseWithHierarchy_spec (by decide) (List.mem_singleton_self _) rfl

/-- Claim C1 counterexample: a request whose two modules share the title
"Basics" fails with a Conflict, but the Course document titled
"Algebra I" (and the first Module) persists afterwards — the create path
has no transaction, and the course row is written before the
duplicate-module validation. -/
theorem createCourseWithHierarchy_dup_persists_cex :
    (createCourseWithHierarchy
        (CourseInput.mk "Algebra I" "" 0 true
          [ModuleInput.mk "Basics" 0 [], ModuleInput.mk "Basics" 1 []])
        (DB.mk [UserD.mk 0 "admin"] [] [] [] [] [] 1)).1 =
      .error (.conflict "Duplicate module title in request: Basics") ∧
    (∃ c ∈ (createCourseWithHierarchy
        (CourseInput.mk "Algebra I" "" 0 true
          [ModuleInput.mk "Basics" 0 [], ModuleInput.mk "Basics" 1 []])
        (DB.mk [UserD.mk 0 "admin"] [] [] [] [] [] 1)).2.courses,
      c.title = "Algebra I") ∧
    (∃ m ∈ (createCourseWithHierarchy
        (CourseInput.mk "Algebra I" "" 0 true
          [ModuleInput.mk "Basics" 0 [], ModuleInput.mk "Basics" 1 []])
        (DB.mk [UserD.mk 0 "admin"] [] [] [] [] [] 1)).2.modules,
      m.title = "Basics") := by
  decide

/-- Claim C1 amended: a hierarchy-create whose modules list contains two
modules with the same title (on a state where the creator exists and the
course title is fresh) does fail with a Conflict error, but the operation
persists partial data: afterwards a Course document with the request's
title exists (there is no transaction or rollback). -/
theorem createCourseWithHierarchy_dup_conflict_course_persists
    {input : CourseInput} {db : DB}
    (hu : ∃ u ∈ db.users, u.id = input.createdBy)
    (ht : ¬ ∃ c ∈ db.courses, c.title = input.title)
    (hdup : ¬ (input.modules.map (fun m => m.title)).Nodup) :
    ∃ e db', createCourseWithHierarchy input db = (.error e, db') ∧
      (∃ msg, e = .conflict msg) ∧
      ∃ c ∈ db'.courses, c.title = input.title := by
  unfold createCourseWithHierarchy
  rw [if_pos hu, if_neg ht]
  dsimp only
  split
  · rename_i e db2 hE
    refine ⟨e, db2, rfl, ?_, ?_⟩
    · have h1' := congrArg Prod.fst hE
      dsimp only at h1'
      exact createModules_error_conflict h1'
    · have h2' := congrArg Prod.snd hE
      dsimp only at h2'
      have hcourses : db2.courses = db.courses ++
          [Course.mk db.nextId input.title input.description input.createdBy input.status] := by
        rw [← h2']
        rw [createModules_snd_courses]
      refine ⟨Course.mk db.nextId input.title input.description input.createdBy input.status,
        ?_, rfl⟩
      rw [hcourses]
      exact List.mem_append_right _ (List.mem_singleton_self _)
  · rename_i u db2 hE
    cases u
    exfalso
    have h1' := congrArg Prod.fst hE
    dsimp only at h1'
    exact createModules_not_ok (Or.inr hdup) h1'

/-- Claim C1 amended, witness at the concrete counterexample input. -/
theorem createCourseWithHierarchy_dup_conflict_course_persists_witness :
    ∃ e db', createCourseWithHierarchy
        (CourseInput.mk "Algebra I" "" 0 true
          [ModuleInput.mk "Basics" 0 [], ModuleInput.mk "Basics" 1 []])
        (DB.mk [UserD.mk 0 "admin"] [] [] [] [] [] 1) = (.error e, db') ∧
      (∃ msg, e = .conflict msg) ∧
      ∃ c ∈ db'.courses, c.title = "Algebra I" :=
  createCourseWithHierarchy_dup_conflict_course_persists
    (by decide) (by decide) (by decide)

/-- Claim C9 counterexample: a course whose two modules were stored with
orderIndex 1 before orderIndex 0 is read back by the single-course
hierarchy read in stored order — the modules array is not sorted by
ascending orderIndex. -/
theorem getCourseWithHierarchy_unsorted_cex :
    getCourseWithHierarchy 1
        (DB.mk [] [Course.mk 1 "T" "" 0 true]
          [Module.mk 2 1 "B" 1, Module.mk 3 1 "A" 0] [] [] [] 4) =
      .ok (Course.mk 1 "T" "" 0 true,
        [ModuleOut.mk (Module.mk 2 1 "B" 1) [], ModuleOut.mk (Module.mk 3 1 "A" 0) []]) ∧
    ¬ List.Sorted (fun a b => a ≤ b)
      ([ModuleOut.mk (Module.mk 2 1 "B" 1) [], ModuleOut.mk (Module.mk 3 1 "A" 0) []].map
        (fun mo => mo.mdl.orderIndex)) := by
  constructor
  · decide
  · have hmap : ([ModuleOut.mk (Module.mk 2 1 "B" 1) [],
        ModuleOut.mk (Module.mk 3 1 "A" 0) []].map (fun mo => mo.mdl.orderIndex)) =
        [(1 : Int), 0] := rfl
    rw [hmap]
    intro hs
    have := List.rel_of_sorted_cons hs 0 (List.mem_singleton_self _)
    omega

/-- Claim C9 amended: the single-course hierarchy read returns the
modules array in stored (fetch) order, with no sorting by orderIndex,
while the chapter-listing endpoint `getChaptersByModuleId` does return
its module's chapters sorted ascending by orderIndex (a permutation of
the stored chapters of that module). -/
theorem read_fetch_order_and_sorted_chapters {db : DB} {c : Course} {cid : Nat}
    {m : Module} {mid : Nat}
    (hc : c ∈ db.courses) (hcid : c.id = cid) (hm : m ∈ db.modules) (hmid : m.id = mid) :
    (∃ c0 s, getCourseWithHierarchy cid db = .ok (c0, s) ∧
      s.map (fun mo => mo.mdl) = db.modules.filter (fun m0 => decide (m0.courseId = cid))) ∧
    (∃ chs, getChaptersByModuleId mid db = .ok chs ∧
      List.Sorted (fun a b => a.orderIndex ≤ b.orderIndex) chs ∧
      List.Perm chs (db.chapters.filter (fun ch => decide (ch.moduleId = mid)))) := by
  constructor
  · have hfind : (db.courses.find? (fun c0 => decide (c0.id = cid))).isSome :=
      List.find?_isSome.mpr ⟨c, hc, by simp [hcid]⟩
    obtain ⟨c', hc'⟩ := Option.isSome_iff_exists.mp hfind
    refine ⟨c', readModules db cid, getCourseWithHierarchy_ok hc', ?_⟩
    unfold readModules
    exact map_mdl_of (fun _ => rfl) _
  · unfold getChaptersByModuleId
    rw [if_pos ⟨m, hm, hmid⟩]
    refine ⟨_, rfl, ?_, ?_⟩
    · exact List.sorted_insertionSort _ _
    · exact List.perm_insertionSort _ _

/-- Claim C9 amended, witness at a concrete state. -/
theorem read_fetch_order_and_sorted_chapters_witness :
    (∃ c0 s, getCourseWithHierarchy 1
        (DB.mk [] [Course.mk 1 "T" "" 0 true]
          [Module.mk 2 1 "B" 1, Module.mk 3 1 "A" 0]
          [Chapter.mk 4 2 "X" 5, Chapter.mk 5 2 "Y" 2] [] [] 6) = .ok (c0, s) ∧
      s.map (fun mo => mo.mdl) =
        List.filter (fun m0 => decide (m0.courseId = 1))
          [Module.mk 2 1 "B" 1, Module.mk 3 1 "A" 0]) ∧
    (∃ chs, getChaptersByModuleId 2
        (DB.mk [] [Course.mk 1 "T" "" 0 true]
          [Module.mk 2 1 "B" 1, Module.mk 3 1 "A" 0]
          [Chapter.mk 4 2 "X" 5, Chapter.mk 5 2 "Y" 2] [] [] 6) = .ok chs ∧
      List.Sorted (fun a b => a.orderIndex ≤ b.orderIndex) chs ∧
      List.Perm chs (List.filter (fun ch => decide (ch.moduleId = 2))
        [Chapter.mk 4 2 "X" 5, Chapter.mk 5 2 "Y" 2])) :=
  read_fetch_order_and_sorted_chapters (List.mem_cons_self _ _) rfl
    (List.mem_cons_self _ _) rfl

theorem bounded_addCourse {db : DB} (hb : db.bounded) {t d : String} {cb : Nat} {st : Bool} :
    (DB.mk db.users (db.courses ++ [Course.mk db.nextId t d cb st]) db.modules
      db.chapters db.lessons db.others (db.nextId + 1)).bounded := by
  obtain ⟨h1, h2, h3, h4⟩ := hb
  refine ⟨?_, ?_, ?_, ?_⟩
  · intro c hc
    rcases List.mem_append.mp hc with hmem | hmem
    · exact Nat.lt_succ_of_lt (h1 c hmem)
    · simp at hmem
      subst hmem
      exact Nat.lt_succ_self _
  · intro m hm
    exact ⟨Nat.lt_succ_of_lt (h2 m hm).1, Nat.lt_succ_of_lt (h2 m hm).2⟩
  · intro ch hc
    exact ⟨Nat.lt_succ_of_lt (h3 ch hc).1, Nat.lt_succ_of_lt (h3 ch hc).2⟩
  · intro l hl
    exact ⟨Nat.lt_succ_of_lt (h4 l hl).1, Nat.lt_succ_of_lt (h4 l hl).2⟩

/-- On a bounded state with the creator present, a fresh (exact) title and
payload-wide title uniqueness at every level, the hierarchy create
succeeds and appends exactly one Course document. -/
theorem createCourseWithHierarchy_ok_spec {input : CourseInput} {db : DB}
    (hb : db.bounded)
    (hu : ∃ u ∈ db.users, u.id = input.createdBy)
    (hex : ¬ ∃ c ∈ db.courses, c.title = input.title)
    (hnd1 : (input.modules.map (fun m => m.title)).Nodup)
    (hnd2 : ∀ mi ∈ input.modules, (mi.chapters.map (fun c => c.title)).Nodup)
    (hnd3 : ∀ mi ∈ input.modules, ∀ ci ∈ mi.chapters,
      (ci.lessons.map (fun l => l.title)).Nodup) :
    ∃ db', createCourseWithHierarchy input db = (.ok db.nextId, db') ∧
      db'.courses = db.courses ++
        [Course.mk db.nextId input.title input.description input.createdBy input.status] := by
  unfold createCourseWithHierarchy
  rw [if_pos hu, if_neg hex]
  dsimp only
  have hb1 : ({ db with
      courses := db.courses ++
        [{ id := db.nextId, title := input.title, description := input.description,
           createdBy := input.createdBy, status := input.status }],
      nextId := db.nextId + 1 } : DB).bounded := bounded_addCourse hb
  have hok : (createModules db.nextId [] input.modules
      { db with
        courses := db.courses ++
          [{ id := db.nextId, title := input.title, description := input.description,
             createdBy := input.createdBy, status := input.status }],
        nextId := db.nextId + 1 }).1 = .ok () := by
    apply createModules_ok hb1 (Nat.lt_succ_self _)
    · intro m0 hm0 hc
      have hmem : m0 ∈ db.modules := hm0
      have := (hb.2.1 m0 hmem).2
      have hcc : m0.courseId = db.nextId := hc
      omega
    · intro mi _
      simp
    · exact hnd1
    · exact hnd2
    · exact hnd3
  split
  · rename_i e db2 hE
    have h1' := congrArg Prod.fst hE
    dsimp only at h1'
    rw [hok] at h1'
    simp at h1'
  · rename_i u db2 hE
    cases u
    have h2' := congrArg Prod.snd hE
    dsimp only at h2'
    refine ⟨db2, rfl, ?_⟩
    rw [← h2']
    rw [createModules_snd_courses]

/-- Claim C8 counterexample: with the course "Algebra I" present, the
hierarchy-create path accepts the title "ALGEBRA I" (its duplicate check
is exact/case-sensitive) and creates a second Course document, while only
the standalone create path rejects it case-insensitively. -/
theorem createCourseWithHierarchy_case_cex :
    (createCourseWithHierarchy
        (CourseInput.mk "ALGEBRA I" "" 0 true [ModuleInput.mk "M" 0 []])
        (DB.mk [UserD.mk 0 "admin"] [Course.mk 1 "Algebra I" "" 0 true]
          [] [] [] [] 2)).1 = .ok 2 ∧
    (createCourseWithHierarchy
        (CourseInput.mk "ALGEBRA I" "" 0 true [ModuleInput.mk "M" 0 []])
        (DB.mk [UserD.mk 0 "admin"] [Course.mk 1 "Algebra I" "" 0 true]
          [] [] [] [] 2)).2.courses.length = 2 ∧
    (createCourse 0 "ALGEBRA I" "" true
        (DB.mk [UserD.mk 0 "admin"] [Course.mk 1 "Algebra I" "" 0 true]
          [] [] [] [] 2)).1 =
      .error (.conflict "A course with this title already exists.") := by
  decide

/-- Claim C8 amended: course-title uniqueness is case-insensitive only on
the standalone create path (`createCourse`, which matches with an
anchored case-insensitive regex and rejects with Conflict, leaving the
state unchanged); the hierarchy create path compares titles exactly, so a
title differing from an existing course only in letter case is accepted
there and a new Course document is created. -/
theorem course_title_case_sensitivity {input : CourseInput} {db : DB} {userId : Nat}
    (hb : db.bounded)
    (hci : ∃ c ∈ db.courses, ciEq c.title input.title)
    (hex : ¬ ∃ c ∈ db.courses, c.title = input.title)
    (hu : ∃ u ∈ db.users, u.id = input.createdBy)
    (hrole : ∀ u ∈ db.users, u.id = userId →
      lowerStr u.role ≠ "student" ∧ lowerStr u.role ≠ "tutor")
    (hnd1 : (input.modules.map (fun m => m.title)).Nodup)
    (hnd2 : ∀ mi ∈ input.modules, (mi.chapters.map (fun c => c.title)).Nodup)
    (hnd3 : ∀ mi ∈ input.modules, ∀ ci ∈ mi.chapters,
      (ci.lessons.map (fun l => l.title)).Nodup) :
    createCourse userId input.title input.description input.status db =
      (.error (.conflict "A course with this title already exists."), db) ∧
    ∃ db', createCourseWithHierarchy input db = (.ok db.nextId, db') ∧
      db'.courses = db.courses ++
        [Course.mk db.nextId input.title input.description input.createdBy input.status] := by
  constructor
  · unfold createCourse
    have hno : ¬ (((db.users.find? (fun u => decide (u.id = userId))).map
        (fun u => lowerStr u.role)) = some "student" ∨
        ((db.users.find? (fun u => decide (u.id = userId))).map
        (fun u => lowerStr u.role)) = some "tutor") := by
      rcases hfu : db.users.find? (fun u => decide (u.id = userId)) with _ | u
      · rw [hfu]
        simp
      · have hmem := List.mem_of_find?_eq_some hfu
        have hpred := List.find?_some hfu
        simp only [decide_eq_true_eq] at hpred
        have := hrole u hmem hpred
        rw [hfu]
        rintro (hcon | hcon)
        · exact this.1 (Option.some.inj hcon)
        · exact this.2 (Option.some.inj hcon)
    rw [if_neg hno, if_pos hci]
  · exact createCourseWithHierarchy_ok_spec hb hu hex hnd1 hnd2 hnd3

/-- Claim C8 amended, witness at the concrete counterexample state. -/
theorem course_title_case_sensitivity_witness :
    createCourse 0 "ALGEBRA I" "" true
        (DB.mk [UserD.mk 0 "admin"] [Course.mk 1 "Algebra I" "" 0 true] [] [] [] [] 2) =
      (.error (.conflict "A course with this title already exists."),
        DB.mk [UserD.mk 0 "admin"] [Course.mk 1 "Algebra I" "" 0 true] [] [] [] [] 2) ∧
    ∃ db', createCourseWithHierarchy
        (CourseInput.mk "ALGEBRA I" "" 0 true [ModuleInput.mk "M" 0 []])
        (DB.mk [UserD.mk 0 "admin"] [Course.mk 1 "Algebra I" "" 0 true]
          [] [] [] [] 2) = (.ok 2, db') ∧
      db'.courses = [Course.mk 1 "Algebra I" "" 0 true] ++
        [Course.mk 2 "ALGEBRA I" "" 0 true] :=
  @course_title_case_sensitivity
    (CourseInput.mk "ALGEBRA I" "" 0 true [ModuleInput.mk "M" 0 []])
    (DB.mk [UserD.mk 0 "admin"] [Course.mk 1 "Algebra I" "" 0 true] [] [] [] [] 2)
    0 (by decide) (by decide) (by decide) (by decide)
    (by decide) (by decide) (by decide) (by decide)

/-- Claim C2: for every payload accepted by `createCourseWithHierarchy`
(on a bounded state), reading the course back immediately with
`getCourseWithHierarchy` returns exactly the submitted modules, chapters
and lessons: erasing the returned tree to payload form gives back the
request's modules list — same counts at every level, each child attached
to the parent it was nested under, every title, orderIndex and lesson
field preserved. -/
theorem create_then_read {input : CourseInput} {db : DB} {cid : Nat} {db' : DB}
    (hb : db.bounded)
    (hc : createCourseWithHierarchy input db = (.ok cid, db')) :
    ∃ c s, getCourseWithHierarchy cid db' = .ok (c, s) ∧
      c.title = input.title ∧ c.id = cid ∧
      s.map ModuleOut.toInput = input.modules := by
  unfold createCourseWithHierarchy at hc
  by_cases hu : ∃ u ∈ db.users, u.id = input.createdBy
  swap
  · rw [if_neg hu] at hc
    simp at hc
  rw [if_pos hu] at hc
  by_cases hex : ∃ c ∈ db.courses, c.title = input.title
  · rw [if_pos hex] at hc
    simp at hc
  rw [if_neg hex] at hc
  dsimp only at hc
  split at hc
  · simp at hc
  · rename_i u db2 hE
    cases u
    rw [Prod.mk.injEq] at hc
    obtain ⟨h1, h2⟩ := hc
    rw [Except.ok.injEq] at h1
    have hcid : db.nextId = cid := h1
    subst hcid
    subst h2
    have h1' := congrArg Prod.fst hE
    dsimp only at h1'
    have h2' := congrArg Prod.snd hE
    dsimp only at h2'
    have hrec := (createModules_ok_eq h1').symm.trans h2'
    have hb1 : ({ db with
        courses := db.courses ++
          [{ id := db.nextId, title := input.title, description := input.description,
             createdBy := input.createdBy, status := input.status }],
        nextId := db.nextId + 1 } : DB).bounded := bounded_addCourse hb
    obtain ⟨newMs, newChs, newLs, ru, rc, ro, rm, rch, rl, rnx, rbnd, rms, rchs, rls, rmap⟩ :=
      recreateModules_spec db.nextId input.modules
        { db with
          courses := db.courses ++
            [{ id := db.nextId, title := input.title, description := input.description,
               createdBy := input.createdBy, status := input.status }],
          nextId := db.nextId + 1 } hb1 (Nat.lt_succ_self _)
    rw [← hrec]
    have hfind : (recreateModules db.nextId input.modules
        { db with
          courses := db.courses ++
            [{ id := db.nextId, title := input.title, description := input.description,
               createdBy := input.createdBy, status := input.status }],
          nextId := db.nextId + 1 }).courses.find?
        (fun c0 => decide (c0.id = db.nextId)) =
        some (Course.mk db.nextId input.title input.description
          input.createdBy input.status) := by
      rw [rc]
      show ((db.courses ++ [Course.mk db.nextId input.title input.description
        input.createdBy input.status]).find? (fun c0 => decide (c0.id = db.nextId))) = _
      rw [List.find?_append]
      have hnone : db.courses.find? (fun c0 => decide (c0.id = db.nextId)) = none := by
        rw [List.find?_eq_none]
        intro c0 hc0
        simp only [decide_eq_true_eq]
        have := hb.1 c0 hc0
        omega
      rw [hnone]
      simp
    rw [getCourseWithHierarchy_ok hfind]
    refine ⟨_, _, rfl, rfl, rfl, ?_⟩
    unfold readModules
    rw [rm]
    have hfl : (({ db with
        courses := db.courses ++
          [{ id := db.nextId, title := input.title, description := input.description,
             createdBy := input.createdBy, status := input.status }],
        nextId := db.nextId + 1 } : DB).modules).filter
        (fun m => decide (m.courseId = db.nextId)) = [] := by
      rw [List.filter_eq_nil_iff]
      intro m hm
      simp only [decide_eq_true_eq]
      have hmem : m ∈ db.modules := hm
      have := (hb.2.1 m hmem).2
      omega
    have hfr : newMs.filter (fun m => decide (m.courseId = db.nextId)) = newMs := by
      rw [List.filter_eq_self]
      intro m hm
      simp only [decide_eq_true_eq]
      exact (rms m hm).1
    rw [List.filter_append, hfl, hfr]
    rw [List.nil_append]
    exact rmap

/-- Claim C2 witness: the concrete Algebra I payload round-trips. -/
theorem create_then_read_witness :
    ∃ c s, getCourseWithHierarchy 1
        (createCourseWithHierarchy
          (CourseInput.mk "Algebra I" "d" 0 true
            [ModuleInput.mk "Basics" 0
              [ChapterInput.mk "Intro" 0
                [LessonInput.mk "What is Algebra" "video" "http://x" 300 0]]])
          (DB.mk [UserD.mk 0 "admin"] [] [] [] [] [] 1)).2 = .ok (c, s) ∧
      c.title = "Algebra I" ∧ c.id = 1 ∧
      s.map ModuleOut.toInput =
        [ModuleInput.mk "Basics" 0
          [ChapterInput.mk "Intro" 0
            [LessonInput.mk "What is Algebra" "video" "http://x" 300 0]]] :=
  @create_then_read
    (CourseInput.mk "Algebra I" "d" 0 true
      [ModuleInput.mk "Basics" 0
        [ChapterInput.mk "Intro" 0
          [LessonInput.mk "What is Algebra" "video" "http://x" 300 0]]])
    (DB.mk [UserD.mk 0 "admin"] [] [] [] [] [] 1) 1
    (createCourseWithHierarchy
      (CourseInput.mk "Algebra I" "d" 0 true
        [ModuleInput.mk "Basics" 0
          [ChapterInput.mk "Intro" 0
            [LessonInput.mk "What is Algebra" "video" "http://x" 300 0]]])
      (DB.mk [UserD.mk 0 "admin"] [] [] [] [] [] 1)).2
    (by decide) (by decide)

/-! ### The update (full-replace) path -/

theorem bounded_applyCourseUpdate {cid : Nat} {input : CourseInput} {db : DB}
    (hb : db.bounded) : (applyCourseUpdate cid input db).bounded := by
  obtain ⟨h1, h2, h3, h4⟩ := hb
  refine ⟨?_, h2, h3, h4⟩
  intro c hc
  rcases List.mem_map.mp hc with ⟨c0, hc0, rfl⟩
  by_cases hid : c0.id = cid
  · rw [if_pos hid]
    exact h1 c0 hc0
  · rw [if_neg hid]
    exact h1 c0 hc0

theorem bounded_deleteCourseSubtree {cid : Nat} {db : DB}
    (hb : db.bounded) : (deleteCourseSubtree cid db).bounded := by
  obtain ⟨h1, h2, h3, h4⟩ := hb
  refine ⟨h1, ?_, ?_, ?_⟩
  · intro m hm
    exact h2 m (List.mem_of_mem_filter hm)
  · intro ch hc
    exact h3 ch (List.mem_of_mem_filter hc)
  · intro l hl
    exact h4 l (List.mem_of_mem_filter hl)

theorem find?_update_by_id {u : Course → Course} (hpres : ∀ c, (u c).id = c.id) {cid : Nat} :
    ∀ {l : List Course} {c0 : Course},
      l.find? (fun c => decide (c.id = cid)) = some c0 →
      (l.map (fun c => if c.id = cid then u c else c)).find?
        (fun c => decide (c.id = cid)) = some (u c0)
  | [], c0, h => by simp at h
  | a :: l, c0, h => by
    by_cases ha : a.id = cid
    · have hpa : (fun c => decide (c.id = cid)) a = true := by simp [ha]
      rw [@List.find?_cons_of_pos _ (fun c => decide (c.id = cid)) a l hpa] at h
      injection h with h
      subst h
      rw [List.map_cons, if_pos ha]
      have hpua : (fun c => decide (c.id = cid)) (u a) = true := by
        simp [hpres a, ha]
      rw [@List.find?_cons_of_pos _ (fun c => decide (c.id = cid)) (u a) _ hpua]
    · have hpa : ¬ (fun c => decide (c.id = cid)) a = true := by simp [ha]
      rw [@List.find?_cons_of_neg _ (fun c => decide (c.id = cid)) a l hpa] at h
      rw [List.map_cons, if_neg ha]
      rw [@List.find?_cons_of_neg _ (fun c => decide (c.id = cid)) a _ hpa]
      exact find?_update_by_id hpres h

/-- When all four validation checks pass, the update runs to completion:
course fields overwritten, old subtree deleted, new subtree recreated. -/
theorem update_checks_ok {input : CourseInput} {db : DB} {cid : Nat}
    (hcourse : ∃ c ∈ db.courses, c.id = cid)
    (hdupT : ¬ ∃ c ∈ db.courses, c.title = input.title ∧ c.id ≠ cid)
    (hnd1 : (input.modules.map (fun m => m.title)).Nodup)
    (hnd2 : ∀ mi ∈ input.modules, (mi.chapters.map (fun c => c.title)).Nodup) :
    updateCourseWithHierarchy cid input db =
      (.ok (), recreateModules cid input.modules
        (deleteCourseSubtree cid (applyCourseUpdate cid input db))) := by
  obtain ⟨c, hc, hcid⟩ := hcourse
  have hfind : (db.courses.find? (fun c0 => decide (c0.id = cid))).isSome :=
    List.find?_isSome.mpr ⟨c, hc, by simp [hcid]⟩
  obtain ⟨c', hc'⟩ := Option.isSome_iff_exists.mp hfind
  unfold updateCourseWithHierarchy
  rw [hc']
  rw [if_neg hdupT, if_neg (not_not_intro hnd1)]
  have hfd : input.modules.find?
      (fun m => decide (¬ (m.chapters.map (fun c => c.title)).Nodup)) = none := by
    rw [List.find?_eq_none]
    intro m hm
    simp only [decide_eq_true_eq, not_not]
    exact hnd2 m hm
  rw [hfd]

/-- Core of the full-replace semantics: a successful update deletes every
pre-update module/chapter/lesson of the course's subtree (no document in
the new state carries one of their ids), and the course reads back as
exactly the new payload. -/
theorem update_replace_core {input : CourseInput} {db : DB} {cid : Nat} {db' : DB}
    (hwf : db.WF)
    (hupd : updateCourseWithHierarchy cid input db = (.ok (), db')) :
    (∀ m ∈ db'.modules, m.id ∉
      (db.modules.filter (fun m0 => decide (m0.courseId = cid))).map (fun m0 => m0.id)) ∧
    (∀ ch ∈ db'.chapters, ch.id ∉
      ((db.chapters.filter (fun ch0 => decide (ch0.moduleId ∈
        (db.modules.filter (fun m0 => decide (m0.courseId = cid))).map (fun m0 => m0.id)))).map
          (fun ch0 => ch0.id))) ∧
    (∀ l ∈ db'.lessons, l.id ∉
      ((db.lessons.filter (fun l0 => decide (l0.chapterId ∈
        ((db.chapters.filter (fun ch0 => decide (ch0.moduleId ∈
          (db.modules.filter (fun m0 => decide (m0.courseId = cid))).map
            (fun m0 => m0.id)))).map (fun ch0 => ch0.id))))).map (fun l0 => l0.id))) ∧
    ∃ c s, getCourseWithHierarchy cid db' = .ok (c, s) ∧
      c.title = input.title ∧
      s.map ModuleOut.toInput = input.modules := by
  unfold updateCourseWithHierarchy at hupd
  split at hupd
  · simp at hupd
  rename_i c0 hc'
  split at hupd
  · simp at hupd
  rename_i hdupT
  split at hupd
  · simp at hupd
  rename_i hndM
  rw [not_not] at hndM
  split at hupd
  · simp at hupd
  rename_i hfd
  rw [Prod.mk.injEq] at hupd
  have hdbeq := hupd.2
  subst hdbeq
  have hc0mem : c0 ∈ db.courses := List.mem_of_find?_eq_some hc'
  have hc0id : c0.id = cid := by
    have := List.find?_some hc'
    simpa using this
  have hcidlt : cid < db.nextId := hc0id ▸ hwf.1.1 c0 hc0mem
  have hb2 : (deleteCourseSubtree cid (applyCourseUpdate cid input db)).bounded :=
    bounded_deleteCourseSubtree (bounded_applyCourseUpdate hwf.1)
  have hcidlt2 : cid < (deleteCourseSubtree cid (applyCourseUpdate cid input db)).nextId :=
    hcidlt
  obtain ⟨newMs, newChs, newLs, ru, rc, ro, rm, rch, rl, rnx, rbnd, rms, rchs, rls, rmap⟩ :=
    recreateModules_spec cid input.modules
      (deleteCourseSubtree cid (applyCourseUpdate cid input db)) hb2 hcidlt2
  have e_mod : (deleteCourseSubtree cid (applyCourseUpdate cid input db)).modules =
      db.modules.filter (fun m => decide (m.courseId ≠ cid)) := rfl
  have e_chap : (deleteCourseSubtree cid (applyCourseUpdate cid input db)).chapters =
      db.chapters.filter (fun ch => decide (ch.moduleId ∉
        (db.modules.filter (fun m0 => decide (m0.courseId = cid))).map (fun m0 => m0.id))) := rfl
  have e_les : (deleteCourseSubtree cid (applyCourseUpdate cid input db)).lessons =
      db.lessons.filter (fun l => decide (l.chapterId ∉
        ((db.chapters.filter (fun ch0 => decide (ch0.moduleId ∈
          (db.modules.filter (fun m0 => decide (m0.courseId = cid))).map
            (fun m0 => m0.id)))).map (fun ch0 => ch0.id)))) := rfl
  have e_crs : (deleteCourseSubtree cid (applyCourseUpdate cid input db)).courses =
      db.courses.map (fun c =>
        if c.id = cid then
          { c with title := input.title, description := input.description,
                   createdBy := input.createdBy, status := input.status }
        else c) := rfl
  have e_nx : (deleteCourseSubtree cid (applyCourseUpdate cid input db)).nextId =
      db.nextId := rfl
  refine ⟨?_, ?_, ?_, ?_⟩
  · -- pre-update subtree modules are gone
    rw [rm]
    intro m hm hin
    rcases List.mem_map.mp hin with ⟨m0, hm0f, hm0id⟩
    have hm0mem : m0 ∈ db.modules := List.mem_of_mem_filter hm0f
    have hm0cid : m0.courseId = cid := by
      have := (List.mem_filter.mp hm0f).2
      simpa using this
    rcases List.mem_append.mp hm with hmem | hmem
    · rw [e_mod] at hmem
      have hmmem : m ∈ db.modules := List.mem_of_mem_filter hmem
      have hmne : m.courseId ≠ cid := by
        have := (List.mem_filter.mp hmem).2
        simpa using this
      have : m0 = m := List.inj_on_of_nodup_map hwf.2.2.1 hm0mem hmmem hm0id
      rw [this] at hm0cid
      exact hmne hm0cid
    · have h1 := (rms m hmem).2
      rw [e_nx] at h1
      have h2 := (hwf.1.2.1 m0 hm0mem).1
      omega
  · -- pre-update subtree chapters are gone
    rw [rch]
    intro ch hch hin
    rcases List.mem_map.mp hin with ⟨ch0, hch0f, hch0id⟩
    have hch0mem : ch0 ∈ db.chapters := List.mem_of_mem_filter hch0f
    have hch0in : ch0.moduleId ∈
        (db.modules.filter (fun m0 => decide (m0.courseId = cid))).map (fun m0 => m0.id) := by
      have := (List.mem_filter.mp hch0f).2
      simpa using this
    rcases List.mem_append.mp hch with hmem | hmem
    · rw [e_chap] at hmem
      have hchmem : ch ∈ db.chapters := List.mem_of_mem_filter hmem
      have hchnin : ch.moduleId ∉
          (db.modules.filter (fun m0 => decide (m0.courseId = cid))).map (fun m0 => m0.id) := by
        have := (List.mem_filter.mp hmem).2
        simpa using this
      have : ch0 = ch := List.inj_on_of_nodup_map hwf.2.2.2.1 hch0mem hchmem hch0id
      rw [this] at hch0in
      exact hchnin hch0in
    · have h1 := (rchs ch hmem).2
      rw [e_nx] at h1
      have h2 := (hwf.1.2.2.1 ch0 hch0mem).1
      omega
  · -- pre-update subtree lessons are gone
    rw [rl]
    intro l hl hin
    rcases List.mem_map.mp hin with ⟨l0, hl0f, hl0id⟩
    have hl0mem : l0 ∈ db.lessons := List.mem_of_mem_filter hl0f
    have hl0in : l0.chapterId ∈
        ((db.chapters.filter (fun ch0 => decide (ch0.moduleId ∈
          (db.modules.filter (fun m0 => decide (m0.courseId = cid))).map
            (fun m0 => m0.id)))).map (fun ch0 => ch0.id)) := by
      have := (List.mem_filter.mp hl0f).2
      simpa using this
    rcases List.mem_append.mp hl with hmem | hmem
    · rw [e_les] at hmem
      have hlmem : l ∈ db.lessons := List.mem_of_mem_filter hmem
      have hlnin : l.chapterId ∉
          ((db.chapters.filter (fun ch0 => decide (ch0.moduleId ∈
            (db.modules.filter (fun m0 => decide (m0.courseId = cid))).map
              (fun m0 => m0.id)))).map (fun ch0 => ch0.id)) := by
        have := (List.mem_filter.mp hmem).2
        simpa using this
      have : l0 = l := List.inj_on_of_nodup_map hwf.2.2.2.2 hl0mem hlmem hl0id
      rw [this] at hl0in
      exact hlnin hl0in
    · have h1 := (rls l hmem).2
      rw [e_nx] at h1
      have h2 := (hwf.1.2.2.2 l0 hl0mem).1
      omega
  · -- read-back equals the new payload
    have hfind : (recreateModules cid input.modules
        (deleteCourseSubtree cid (applyCourseUpdate cid input db))).courses.find?
        (fun c => decide (c.id = cid)) =
        some { c0 with title := input.title, description := input.description,
                       createdBy := input.createdBy, status := input.status } := by
      rw [rc, e_crs]
      exact @find?_update_by_id
        (fun c => { c with title := input.title, description := input.description,
                           createdBy := input.createdBy, status := input.status })
        (fun c => rfl) cid db.courses c0 hc'
    rw [getCourseWithHierarchy_ok hfind]
    refine ⟨_, _, rfl, rfl, ?_⟩
    unfold readModules
    rw [rm, List.filter_append]
    have e1 : ((deleteCourseSubtree cid (applyCourseUpdate cid input db)).modules).filter
        (fun m => decide (m.courseId = cid)) = [] := by
      rw [e_mod, List.filter_filter, List.filter_eq_nil_iff]
      intro m _
      simp
    have e2 : newMs.filter (fun m => decide (m.courseId = cid)) = newMs := by
      rw [List.filter_eq_self]
      intro m hm
      simp only [decide_eq_true_eq]
      exact (rms m hm).1
    rw [e1, e2, List.nil_append]
    exact rmap

/-- Claim C3: a successful `updateCourseWithHierarchy` implements
full-replace semantics: every Module, Chapter and Lesson document of the
course's pre-update subtree is deleted (no document in the new state
carries one of their ids, so new children have fresh ids and a smaller
payload leaves removed children fully absent, no orphans), and reading
the course afterwards returns exactly the new payload. -/
theorem update_full_replace {input : CourseInput} {db : DB} {cid : Nat} {db' : DB}
    (hwf : db.WF)
    (hupd : updateCourseWithHierarchy cid input db = (.ok (), db')) :
    (∀ m ∈ db'.modules, m.id ∉
      (db.modules.filter (fun m0 => decide (m0.courseId = cid))).map (fun m0 => m0.id)) ∧
    (∀ ch ∈ db'.chapters, ch.id ∉
      ((db.chapters.filter (fun ch0 => decide (ch0.moduleId ∈
        (db.modules.filter (fun m0 => decide (m0.courseId = cid))).map (fun m0 => m0.id)))).map
          (fun ch0 => ch0.id))) ∧
    (∀ l ∈ db'.lessons, l.id ∉
      ((db.lessons.filter (fun l0 => decide (l0.chapterId ∈
        ((db.chapters.filter (fun ch0 => decide (ch0.moduleId ∈
          (db.modules.filter (fun m0 => decide (m0.courseId = cid))).map
            (fun m0 => m0.id)))).map (fun ch0 => ch0.id))))).map (fun l0 => l0.id))) ∧
    ∃ c s, getCourseWithHierarchy cid db' = .ok (c, s) ∧
      c.title = input.title ∧
      s.map ModuleOut.toInput = input.modules :=
  update_replace_core hwf hupd

/-- Claim C3 witness: replacing the two-module subtree of course 1 by a
single fresh module leaves nothing of the old subtree behind. -/
theorem update_full_replace_witness :
    (∀ m ∈ (updateCourseWithHierarchy 1
        (CourseInput.mk "T2" "" 0 true [ModuleInput.mk "OnlyM" 7 []])
        (DB.mk [UserD.mk 0 "admin"] [Course.mk 1 "T" "" 0 true]
          [Module.mk 2 1 "B" 1, Module.mk 3 1 "A" 0]
          [Chapter.mk 4 2 "X" 5, Chapter.mk 5 2 "Y" 2]
          [Lesson.mk 7 4 "l" "video" "u" 1 0] [] 8)).2.modules, m.id ∉
      (List.filter (fun m0 => decide (m0.courseId = 1))
        [Module.mk 2 1 "B" 1, Module.mk 3 1 "A" 0]).map (fun m0 => m0.id)) ∧
    (∀ ch ∈ (updateCourseWithHierarchy 1
        (CourseInput.mk "T2" "" 0 true [ModuleInput.mk "OnlyM" 7 []])
        (DB.mk [UserD.mk 0 "admin"] [Course.mk 1 "T" "" 0 true]
          [Module.mk 2 1 "B" 1, Module.mk 3 1 "A" 0]
          [Chapter.mk 4 2 "X" 5, Chapter.mk 5 2 "Y" 2]
          [Lesson.mk 7 4 "l" "video" "u" 1 0] [] 8)).2.chapters, ch.id ∉
      ((List.filter (fun ch0 => decide (ch0.moduleId ∈
        (List.filter (fun m0 => decide (m0.courseId = 1))
          [Module.mk 2 1 "B" 1, Module.mk 3 1 "A" 0]).map (fun m0 => m0.id)))
        [Chapter.mk 4 2 "X" 5, Chapter.mk 5 2 "Y" 2]).map (fun ch0 => ch0.id))) ∧
    (∀ l ∈ (updateCourseWithHierarchy 1
        (CourseInput.mk "T2" "" 0 true [ModuleInput.mk "OnlyM" 7 []])
        (DB.mk [UserD.mk 0 "admin"] [Course.mk 1 "T" "" 0 true]
          [Module.mk 2 1 "B" 1, Module.mk 3 1 "A" 0]
          [Chapter.mk 4 2 "X" 5, Chapter.mk 5 2 "Y" 2]
          [Lesson.mk 7 4 "l" "video" "u" 1 0] [] 8)).2.lessons, l.id ∉
      ((List.filter (fun l0 => decide (l0.chapterId ∈
        ((List.filter (fun ch0 => decide (ch0.moduleId ∈
          (List.filter (fun m0 => decide (m0.courseId = 1))
            [Module.mk 2 1 "B" 1, Module.mk 3 1 "A" 0]).map (fun m0 => m0.id)))
          [Chapter.mk 4 2 "X" 5, Chapter.mk 5 2 "Y" 2]).map (fun ch0 => ch0.id))))
        [Lesson.mk 7 4 "l" "video" "u" 1 0]).map (fun l0 => l0.id))) ∧
    ∃ c s, getCourseWithHierarchy 1
        (updateCourseWithHierarchy 1
          (CourseInput.mk "T2" "" 0 true [ModuleInput.mk "OnlyM" 7 []])
          (DB.mk [UserD.mk 0 "admin"] [Course.mk 1 "T" "" 0 true]
            [Module.mk 2 1 "B" 1, Module.mk 3 1 "A" 0]
            [Chapter.mk 4 2 "X" 5, Chapter.mk 5 2 "Y" 2]
            [Lesson.mk 7 4 "l" "video" "u" 1 0] [] 8)).2 = .ok (c, s) ∧
      c.title = "T2" ∧
      s.map ModuleOut.toInput = [ModuleInput.mk "OnlyM" 7 []] :=
  @update_full_replace
    (CourseInput.mk "T2" "" 0 true [ModuleInput.mk "OnlyM" 7 []])
    (DB.mk [UserD.mk 0 "admin"] [Course.mk 1 "T" "" 0 true]
      [Module.mk 2 1 "B" 1, Module.mk 3 1 "A" 0]
      [Chapter.mk 4 2 "X" 5, Chapter.mk 5 2 "Y" 2]
      [Lesson.mk 7 4 "l" "video" "u" 1 0] [] 8) 1
    (updateCourseWithHierarchy 1
      (CourseInput.mk "T2" "" 0 true [ModuleInput.mk "OnlyM" 7 []])
      (DB.mk [UserD.mk 0 "admin"] [Course.mk 1 "T" "" 0 true]
        [Module.mk 2 1 "B" 1, Module.mk 3 1 "A" 0]
        [Chapter.mk 4 2 "X" 5, Chapter.mk 5 2 "Y" 2]
        [Lesson.mk 7 4 "l" "video" "u" 1 0] [] 8)).2
    (by decide) (by decide)

/-- Claim C7 counterexample: an update payload whose single chapter holds
two lessons with the same title "L" is not rejected: the update succeeds
and both duplicate lessons are inserted. -/
theorem update_dup_lessons_cex :
    (updateCourseWithHierarchy 1
        (CourseInput.mk "Algebra I" "" 0 true
          [ModuleInput.mk "M" 0 [ChapterInput.mk "C" 0
            [LessonInput.mk "L" "video" "http://x" 300 0,
             LessonInput.mk "L" "video" "http://x" 300 1]]])
        (DB.mk [UserD.mk 0 "admin"] [Course.mk 1 "Algebra I" "" 0 true]
          [] [] [] [] 2)).1 = .ok () ∧
    ((updateCourseWithHierarchy 1
        (CourseInput.mk "Algebra I" "" 0 true
          [ModuleInput.mk "M" 0 [ChapterInput.mk "C" 0
            [LessonInput.mk "L" "video" "http://x" 300 0,
             LessonInput.mk "L" "video" "http://x" 300 1]]])
        (DB.mk [UserD.mk 0 "admin"] [Course.mk 1 "Algebra I" "" 0 true]
          [] [] [] [] 2)).2.lessons.map (fun l => l.title)) = ["L", "L"] := by
  decide

/-- Claim C7 amended: the update path re-validates duplicate titles at the
module and chapter levels only.  Duplicate lesson titles inside a chapter
are not checked: with the course present, no conflicting course title,
and module/chapter titles unique, the update succeeds for ANY lessons
lists — duplicates included — and all submitted lessons are inserted (the
read-back equals the payload verbatim). -/
theorem update_allows_duplicate_lesson_titles {input : CourseInput} {db : DB} {cid : Nat}
    (hwf : db.WF)
    (hcourse : ∃ c ∈ db.courses, c.id = cid)
    (hdupT : ¬ ∃ c ∈ db.courses, c.title = input.title ∧ c.id ≠ cid)
    (hnd1 : (input.modules.map (fun m => m.title)).Nodup)
    (hnd2 : ∀ mi ∈ input.modules, (mi.chapters.map (fun c => c.title)).Nodup) :
    ∃ db', updateCourseWithHierarchy cid input db = (.ok (), db') ∧
      ∃ c s, getCourseWithHierarchy cid db' = .ok (c, s) ∧
        s.map ModuleOut.toInput = input.modules := by
  have hok := update_checks_ok hcourse hdupT hnd1 hnd2
  refine ⟨_, hok, ?_⟩
  obtain ⟨_, _, _, c, s, h1, _, h3⟩ := update_replace_core hwf hok
  exact ⟨c, s, h1, h3⟩

/-- Claim C7 amended, witness at the duplicate-lesson input. -/
theorem update_allows_duplicate_lesson_titles_witness :
    ∃ db', updateCourseWithHierarchy 1
        (CourseInput.mk "Algebra I" "" 0 true
          [ModuleInput.mk "M" 0 [ChapterInput.mk "C" 0
            [LessonInput.mk "L" "video" "http://x" 300 0,
             LessonInput.mk "L" "video" "http://x" 300 1]]])
        (DB.mk [UserD.mk 0 "admin"] [Course.mk 1 "Algebra I" "" 0 true]
          [] [] [] [] 2) = (.ok (), db') ∧
      ∃ c s, getCourseWithHierarchy 1 db' = .ok (c, s) ∧
        s.map ModuleOut.toInput =
          [ModuleInput.mk "M" 0 [ChapterInput.mk "C" 0
            [LessonInput.mk "L" "video" "http://x" 300 0,
             LessonInput.mk "L" "video" "http://x" 300 1]]] :=
  @update_allows_duplicate_lesson_titles
    (CourseInput.mk "Algebra I" "" 0 true
      [ModuleInput.mk "M" 0 [ChapterInput.mk "C" 0
        [LessonInput.mk "L" "video" "http://x" 300 0,
         LessonInput.mk "L" "video" "http://x" 300 1]]])
    (DB.mk [UserD.mk 0 "admin"] [Course.mk 1 "Algebra I" "" 0 true] [] [] [] [] 2) 1
    (by decide) (by decide) (by decide) (by decide) (by decide)

end MSpace
